import Mathlib

/-!
# ScenePointSelectionMode: vertex picking and selection toggling

A shallow embedding of `src/Base/ScenePointSelectionMode.cpp` (choreonoid).

Conventions of the embedding.

* The numbers of the source are `float` and `double` values.  The definitions
  taken from the source are written over a type `K` of such values and a class
  `Arith K` that gives the operations the source takes from Eigen and from the
  language: the comparison `<`, the inverse of a transform, the product of a
  transform and a vector, the conversion of a vector to `float`, and the norm of
  a difference in `float` and in `double`.  The conversion from `float` to
  `double` is exact and is the identity.
* `Flt` is the type of IEEE 754 values, and `Arith Flt` evaluates the operations
  in binary32 and binary64 with rounding to nearest, ties to even.  The general
  theorems hold for every `Arith K`; the concrete ones are evaluated in `Flt`.
* `shared_ptr<SgNodePath>` is a nullable pair of an address and the (immutable)
  pointee; `make_shared` takes the next unused address.
* An operation whose source dereferences a null pointer or indexes a vector out
  of range returns `none`.
-/

namespace Choreonoid

/-! ## Geometry -/

/-- A three-dimensional vector (`Vector3`, `Vector3f`). -/
structure Vec3 (K : Type) where
  x : K
  y : K
  z : K
deriving DecidableEq, Repr

/-- An affine transform (`Affine3`): a 3x3 linear part, row by row, and a
translation. -/
structure Affine3 (K : Type) where
  m00 : K
  m01 : K
  m02 : K
  m10 : K
  m11 : K
  m12 : K
  m20 : K
  m21 : K
  m22 : K
  tx : K
  ty : K
  tz : K
deriving DecidableEq, Repr

/-- The identity transform. -/
def Affine3.identity {K : Type} [Zero K] [One K] : Affine3 K :=
  ⟨1, 0, 0, 0, 1, 0, 0, 0, 1, 0, 0, 0⟩

/-- The operations on `float` and `double` values that `findPointedVertex` and
`setPointedVertex` use, with the three properties of `<` that the statements
need.
* `lt a b` is `a < b`.
* `fltMax` is `std::numeric_limits<float>::max()` and `threshold` the `double`
  literal `0.01`.
* `inverse T` is `T.inverse()` and `transform T v` is `T * v`, both in `double`.
* `castFloat v` is `v.cast<float>()`.
* `distanceFloat a b` is `(a - b).norm()` on `Vector3f`, `distanceDouble a b` is
  `(a - b).norm()` on `Vector3`. -/
class Arith (K : Type) where
  lt : K → K → Bool
  fltMax : K
  threshold : K
  inverse : Affine3 K → Affine3 K
  transform : Affine3 K → Vec3 K → Vec3 K
  castFloat : Vec3 K → Vec3 K
  distanceFloat : Vec3 K → Vec3 K → K
  distanceDouble : Vec3 K → Vec3 K → K
  lt_irrefl : ∀ a : K, lt a a = false
  lt_trans : ∀ a b c : K, lt a b = true → lt b c = true → lt a c = true
  lt_total : ∀ a b c : K, lt a c = true → lt b c = true →
    lt a b = true ∨ a = b ∨ lt b a = true

instance {K : Type} [Arith K] : HMul (Affine3 K) (Vec3 K) (Vec3 K) :=
  ⟨Arith.transform⟩

/-! ## findPointedVertex -/

/-- The loop of `findPointedVertex` (lines 267-273) from index `i` on, over the
remaining vertices, with the current `minDistanceIndex` and `minDistance`. -/
def scanVertices {K : Type} [Arith K] (localPoint : Vec3 K) :
    List (Vec3 K) → Nat → Int × K → Int × K
  | [], _, acc => acc
  | v :: vs, i, (minDistanceIndex, minDistance) =>
    let distance := Arith.distanceFloat v localPoint
    if Arith.lt distance minDistance then
      scanVertices localPoint vs (i + 1) ((i : Int), distance)
    else
      scanVertices localPoint vs (i + 1) (minDistanceIndex, minDistance)

/-- The candidate of `findPointedVertex` (lines 264-273): the value of
`minDistanceIndex` after the loop, started from `-1` and `FLT_MAX`.  The `int`
counter of the loop is unbounded here: a vertex array has fewer than `2^31`
elements. -/
def findMinDistanceIndex {K : Type} [Arith K]
    (vertices : List (Vec3 K)) (localPoint : Vec3 K) : Int :=
  (scanVertices localPoint vertices 0 (-1, Arith.fltMax)).1

/-- The function `findPointedVertex` (lines 259-284).  `some i` stands for the
return value `true` with `out_index = i`, `none` for `false` (and `out_index`
left as it was). -/
def findPointedVertex {K : Type} [Arith K]
    (vertices : List (Vec3 K)) (T : Affine3 K) (point : Vec3 K) : Option Nat :=
  let localPoint := Arith.castFloat (Arith.inverse T * point)
  let minDistanceIndex := findMinDistanceIndex vertices localPoint
  if 0 ≤ minDistanceIndex then
    match vertices[minDistanceIndex.toNat]? with
    | none => none
    | some vmin =>
      let v := T * vmin
      let distance := Arith.distanceDouble v point
      if Arith.lt distance Arith.threshold then
        some minDistanceIndex.toNat
      else
        none
  else
    none

/-! ## Scene graph and events -/

/-- Address of a scene node (`SgNode*`). -/
abbrev SgNodePtr := Nat

/-- A node path (`SgNodePath`, a vector of node pointers, root first). -/
abbrev SgNodePath := List SgNodePtr

/-- Address of a scene widget (`SceneWidget*`). -/
abbrev SceneWidgetPtr := Nat

/-- Modelled from the spec: the class `SgMesh` is declared outside the source
file (the spec speaks of "a mesh with a vertex buffer").  A mesh as far as the
mode reads it: `vertices()` is a nullable pointer to the vertex array. -/
structure SgMesh (K : Type) where
  vertices : Option (List (Vec3 K))

/-- Modelled from the spec: the class `SgShape` is declared outside the source
file (the spec speaks of a "shape-type node carrying a mesh" and of a leaf with
"no mesh").  A shape node as far as the mode reads it: `mesh()` is a nullable
pointer. -/
structure SgShape (K : Type) where
  mesh : Option (SgMesh K)

/-- The value `Qt::LeftButton`. -/
def LeftButton : Nat := 1

/-- The value `Qt::ControlModifier`, `0x04000000`. -/
def ControlModifier : Nat := 67108864

/-- A `SceneWidgetEvent` together with what the collaborators of the mode answer
while the event is handled: the state of the widget that sent it, the result of
`dynamic_cast<SgShape*>` on a node, of `calcTotalTransform` on a path and of the
virtual `getTargetSceneNodes`. -/
structure SceneWidgetEvent (K : Type) where
  sceneWidget : SceneWidgetPtr
  activeCustomMode : Int
  isEditMode : Bool
  nodePath : SgNodePath
  point : Vec3 K
  button : Nat
  modifiers : Nat
  asShape : SgNodePtr → Option (SgShape K)
  calcTotalTransform : SgNodePath → Affine3 K
  getTargetSceneNodes : List SgNodePtr

/-- The test `event.modifiers() & Qt::ControlModifier`. -/
def SceneWidgetEvent.controlHeld {K : Type} (event : SceneWidgetEvent K) : Bool :=
  (event.modifiers &&& ControlModifier) != 0

/-! ## VertexInfo -/

/-- A non-null `shared_ptr<SgNodePath>`: the address of the path object and the
path stored there. -/
structure SharedPath where
  addr : Nat
  val : SgNodePath
deriving DecidableEq, Repr

/-- The class `VertexInfo` (lines 31-51). -/
structure VertexInfo (K : Type) where
  path : Option SharedPath
  vertexIndex : Int
  position : Vec3 K
deriving DecidableEq, Repr

/-- Comparison `p == q` of two shared pointers: the addresses are compared, and
null equals null. -/
def ptrEq : Option SharedPath → Option SharedPath → Bool
  | none, none => true
  | some p, some q => p.addr == q.addr
  | _, _ => false

/-- The test `p && q && *p == *q` on two shared pointers. -/
def pathContentEq : Option SharedPath → Option SharedPath → Bool
  | some p, some q => p.val == q.val
  | _, _ => false

namespace VertexInfo

variable {K : Type}

/-- The method `isValid()` (line 40): `bool(path)`. -/
def isValid (v : VertexInfo K) : Bool :=
  v.path.isSome

/-- The method `operator==` (lines 42-50). -/
def operator_eq (v rhs : VertexInfo K) : Bool :=
  if ptrEq v.path rhs.path || pathContentEq v.path rhs.path then
    if v.vertexIndex == rhs.vertexIndex then true else false
  else
    false

end VertexInfo

/-! ## The mode -/

/-- The class `ScenePointSelectionMode::Impl` (lines 57-86).  The map
`sceneWidgetInfos` is kept by its keys (every record has decoration id 1).
Besides the members of the class the state holds what the mode changes in its
collaborators: the widgets whose system node group holds `vertexOverlay`, the
node decorations installed in the renderer of each widget, the number of
`notifyUpdate` calls made on each vertex array, and the next unused address for
`make_shared`. -/
structure Impl (K : Type) where
  modeId : Int
  sceneWidgetInfos : List SceneWidgetPtr
  targetNodes : Finset SgNodePtr
  pointedVertexArray : List (Vec3 K)
  selectedVertexArray : List (Vec3 K)
  pointedVertex : VertexInfo K
  selectedVertices : List (VertexInfo K)
  overlayParents : List SceneWidgetPtr
  nodeDecorations : List (SceneWidgetPtr × SgNodePtr)
  pointedVertexArrayUpdates : Nat
  selectedVertexArrayUpdates : Nat
  nextAddr : Nat
deriving DecidableEq

namespace Impl

variable {K : Type}

/-- The state after the constructor (lines 97-115, and line 38 for
`pointedVertex`).  The constructor of `VertexInfo` leaves `position`
uninitialised; `position0` is whatever it holds. -/
def init (position0 : Vec3 K) : Impl K where
  modeId := 0
  sceneWidgetInfos := []
  targetNodes := ∅
  pointedVertexArray := []
  selectedVertexArray := []
  pointedVertex := ⟨none, -1, position0⟩
  selectedVertices := []
  overlayParents := []
  nodeDecorations := []
  pointedVertexArrayUpdates := 0
  selectedVertexArrayUpdates := 0
  nextAddr := 0

/-- The method `setCustomModeId` (lines 124-127). -/
def setCustomModeId (s : Impl K) (id : Int) : Impl K :=
  { s with modeId := id }

/-- The method `getSelectedPoints` (lines 130-138). -/
def getSelectedPoints (s : Impl K) : List (Vec3 K) :=
  s.selectedVertices.map (fun vertex => vertex.position)

/-- The method `setupScenePointSelectionMode` (lines 173-209). -/
def setupScenePointSelectionMode (s : Impl K) (event : SceneWidgetEvent K) : Impl K :=
  let sceneWidget := event.sceneWidget
  { s with
    sceneWidgetInfos :=
      if sceneWidget ∈ s.sceneWidgetInfos then s.sceneWidgetInfos
      else sceneWidget :: s.sceneWidgetInfos
    overlayParents :=
      if sceneWidget ∈ s.overlayParents then s.overlayParents
      else sceneWidget :: s.overlayParents
    nodeDecorations :=
      (s.nodeDecorations.filter (fun d => d.1 != sceneWidget))
        ++ event.getTargetSceneNodes.map (fun node => (sceneWidget, node))
    targetNodes :=
      event.getTargetSceneNodes.foldl (fun targets node => insert node targets) ∅ }

/-- The method `clearScenePointSelectionMode` (lines 212-221). -/
def clearScenePointSelectionMode (s : Impl K) (sceneWidget : SceneWidgetPtr) : Impl K :=
  let s1 : Impl K :=
    if sceneWidget ∈ s.sceneWidgetInfos then
      { s with
        overlayParents := s.overlayParents.filter (fun w => w != sceneWidget)
        nodeDecorations := s.nodeDecorations.filter (fun d => d.1 != sceneWidget) }
    else
      s
  { s1 with targetNodes := ∅ }

/-- The method `onSceneModeChanged` (lines 161-170). -/
def onSceneModeChanged (s : Impl K) (event : SceneWidgetEvent K) : Impl K :=
  if event.activeCustomMode == s.modeId && event.isEditMode then
    s.setupScenePointSelectionMode event
  else
    s.clearScenePointSelectionMode event.sceneWidget

/-- The slot connected to `QWidget::destroyed` (line 186): the record of the
widget is erased. -/
def onSceneWidgetDestroyed (s : Impl K) (sceneWidget : SceneWidgetPtr) : Impl K :=
  { s with sceneWidgetInfos := s.sceneWidgetInfos.filter (fun w => w != sceneWidget) }

/-- The method `setPointedVertex` (lines 287-297).  `resize(1)` followed by the
assignment to `front()` leaves exactly one point in `pointedVertexArray`.  An
index outside the vertex array is `none`. -/
def setPointedVertex [Arith K] (s : Impl K) (path : SgNodePath)
    (vertices : List (Vec3 K)) (T : Affine3 K) (vertexIndex : Nat) : Option (Impl K) :=
  match vertices[vertexIndex]? with
  | none => none
  | some vi =>
    let v := Arith.castFloat (T * vi)
    some { s with
      pointedVertex := ⟨some ⟨s.nextAddr, path⟩, (vertexIndex : Int), v⟩
      nextAddr := s.nextAddr + 1
      pointedVertexArray := [v]
      pointedVertexArrayUpdates := s.pointedVertexArrayUpdates + 1 }

/-- The method `clearPointedVertex` (lines 300-309). -/
def clearPointedVertex (s : Impl K) : Impl K :=
  let s1 : Impl K :=
    { s with pointedVertex := { s.pointedVertex with path := none, vertexIndex := -1 } }
  if !s1.pointedVertexArray.isEmpty then
    { s1 with
      pointedVertexArray := []
      pointedVertexArrayUpdates := s1.pointedVertexArrayUpdates + 1 }
  else
    s1

/-- The method `onPointerMoveEvent` (lines 224-256): the returned flag and the
new state, or `none` when a null `mesh()` or `vertices()` is dereferenced. -/
def onPointerMoveEvent [Arith K] (s : Impl K) (event : SceneWidgetEvent K) :
    Option (Bool × Impl K) :=
  if !event.isEditMode then
    some (false, s)
  else
    let path := event.nodePath
    let isTargetNode := path.reverse.any (fun node => decide (node ∈ s.targetNodes))
    if isTargetNode then
      match path.getLast? with
      | none => none
      | some back =>
        match event.asShape back with
        | some shape =>
          match shape.mesh with
          | none => none
          | some mesh =>
            match mesh.vertices with
            | none => none
            | some vertices =>
              let T := event.calcTotalTransform path
              match findPointedVertex vertices T event.point with
              | some pointedIndex =>
                (s.setPointedVertex path vertices T pointedIndex).map (fun s1 => (true, s1))
              | none => some (true, s.clearPointedVertex)
        | none => some (true, s.clearPointedVertex)
    else
      some (true, s.clearPointedVertex)

/-- The method `onPointerLeaveEvent` (lines 312-318). -/
def onPointerLeaveEvent (s : Impl K) : Impl K :=
  if !s.pointedVertexArray.isEmpty then
    { s with
      pointedVertexArray := []
      pointedVertexArrayUpdates := s.pointedVertexArrayUpdates + 1 }
  else
    s

/-- The method `updateSelectedVertexArray` (lines 376-385). -/
def updateSelectedVertexArray (s : Impl K) : Impl K :=
  { s with
    selectedVertexArray := s.selectedVertices.map (fun vertexInfo => vertexInfo.position)
    selectedVertexArrayUpdates := s.selectedVertexArrayUpdates + 1 }

/-- The loop of `onButtonPressEvent` (lines 346-355) from position `i` on, over
the remaining elements, with the current `sharedPath`.  The result is the
position of the erased element, if one was erased, and the final `sharedPath`;
`none` when `*it->path` or `*pointedVertex.path` dereferences a null pointer. -/
def scanSelected (pointedVertex : VertexInfo K) :
    List (VertexInfo K) → Nat → Option SharedPath → Option (Option Nat × Option SharedPath)
  | [], _, sharedPath => some (none, sharedPath)
  | it :: rest, i, sharedPath =>
    if it.operator_eq pointedVertex then
      some (some i, sharedPath)
    else if sharedPath.isNone then
      match it.path, pointedVertex.path with
      | some p, some q =>
        scanSelected pointedVertex rest (i + 1) (if p.val == q.val then some p else none)
      | _, _ => none
    else
      scanSelected pointedVertex rest (i + 1) sharedPath

/-- Lines 358-360 of `onButtonPressEvent`: `if(sharedPath){ pointedVertex.path =
sharedPath; }`. -/
def adoptSharedPath (pointedVertex : VertexInfo K) : Option SharedPath → VertexInfo K
  | some p => { pointedVertex with path := some p }
  | none => pointedVertex

/-- The method `Impl::onButtonPressEvent` (lines 327-373): the returned flag
`processed` and the new state, or `none` on a null dereference in the loop. -/
def onButtonPressEvent (s : Impl K) (event : SceneWidgetEvent K) : Option (Bool × Impl K) :=
  if event.button == LeftButton then
    if !s.pointedVertex.isValid then
      if !event.controlHeld then
        if !s.selectedVertices.isEmpty then
          some (true, updateSelectedVertexArray { s with selectedVertices := [] })
        else
          some (true, s)
      else
        some (true, s)
    else
      let scanned : Option (Option Nat × Option SharedPath × List (VertexInfo K)) :=
        if !event.controlHeld then
          some (none, none, [])
        else
          (scanSelected s.pointedVertex s.selectedVertices 0 none).map
            (fun r =>
              match r.1 with
              | some i => (some i, r.2, s.selectedVertices.eraseIdx i)
              | none => (none, r.2, s.selectedVertices))
      match scanned with
      | none => none
      | some (some _, _, selectedVertices) =>
        some (true, updateSelectedVertexArray { s with selectedVertices := selectedVertices })
      | some (none, sharedPath, selectedVertices) =>
        let pointedVertex := adoptSharedPath s.pointedVertex sharedPath
        some (true, updateSelectedVertexArray
          { s with
            pointedVertex := pointedVertex
            selectedVertices := selectedVertices ++ [pointedVertex] })
  else
    some (false, s)

end Impl

/-! ## Transition system -/

/-- The calls the host makes on the mode. -/
inductive Event (K : Type) where
  | setCustomModeId (id : Int)
  | sceneModeChanged (event : SceneWidgetEvent K)
  | sceneWidgetDestroyed (sceneWidget : SceneWidgetPtr)
  | pointerMove (event : SceneWidgetEvent K)
  | pointerLeave (event : SceneWidgetEvent K)
  | buttonPress (event : SceneWidgetEvent K)

/-- The state after one call, `none` when the call has undefined behaviour. -/
def step {K : Type} [Arith K] (s : Impl K) : Event K → Option (Impl K)
  | .setCustomModeId id => some (s.setCustomModeId id)
  | .sceneModeChanged event => some (s.onSceneModeChanged event)
  | .sceneWidgetDestroyed sceneWidget => some (s.onSceneWidgetDestroyed sceneWidget)
  | .pointerMove event => (s.onPointerMoveEvent event).map Prod.snd
  | .pointerLeave _ => some s.onPointerLeaveEvent
  | .buttonPress event => (s.onButtonPressEvent event).map Prod.snd

/-- The states the mode can be in: the state after the constructor, and every
state a defined call leads to from such a state. -/
inductive Reachable {K : Type} [Arith K] : Impl K → Prop where
  | init (position0 : Vec3 K) : Reachable (Impl.init position0)
  | step {s s1 : Impl K} (ev : Event K) : Reachable s → step s ev = some s1 → Reachable s1

/-- The states reached by a sequence of calls, `none` as soon as one of them
has undefined behaviour. -/
def run {K : Type} [Arith K] (s : Impl K) : List (Event K) → Option (Impl K)
  | [] => some s
  | ev :: evs => (step s ev).bind (fun s1 => run s1 evs)

/-! ## Predicates used in the statements -/

/-- Two vertex identities name the same vertex: structurally equal paths (or no
path on either side) and the same vertex index. -/
def VertexInfo.sameVertex {K : Type} (a b : VertexInfo K) : Prop :=
  a.path.map (fun p => p.val) = b.path.map (fun p => p.val) ∧ a.vertexIndex = b.vertexIndex

/-- The path of a vertex identity is non-empty: the pointer is set and the path
it points to has a node. -/
def VertexInfo.hasNonEmptyPath {K : Type} (v : VertexInfo K) : Prop :=
  ∃ p : SharedPath, v.path = some p ∧ p.val ≠ []

/-- The leaf of the event's path is a shape without mesh, or with a mesh
without vertex array. -/
def SceneWidgetEvent.leafLacksVertices {K : Type} (event : SceneWidgetEvent K) : Prop :=
  ∃ (back : SgNodePtr) (shape : SgShape K), event.nodePath.getLast? = some back ∧
    event.asShape back = some shape ∧
    (shape.mesh = none ∨ ∃ mesh : SgMesh K, shape.mesh = some mesh ∧ mesh.vertices = none)

/-- The consistency conditions that hold in every reachable state. -/
structure Impl.WellFormed {K : Type} (s : Impl K) : Prop where
  selected_valid : ∀ v ∈ s.selectedVertices, v.isValid = true
  addr_lt : ∀ v ∈ s.pointedVertex :: s.selectedVertices, ∀ p : SharedPath,
    v.path = some p → p.addr < s.nextAddr
  addr_inj : ∀ a ∈ s.pointedVertex :: s.selectedVertices,
    ∀ b ∈ s.pointedVertex :: s.selectedVertices, ∀ p q : SharedPath,
    a.path = some p → b.path = some q → p.addr = q.addr → p.val = q.val
  nodup : s.selectedVertices.Pairwise (fun a b => a.operator_eq b = false)
  pointed_invalid : s.pointedVertex.path = none → s.pointedVertex.vertexIndex = -1
  valid_index : ∀ v ∈ s.pointedVertex :: s.selectedVertices, ∀ p : SharedPath,
    v.path = some p → p.val ≠ [] ∧ 0 ≤ v.vertexIndex
  array_eq : s.selectedVertexArray = s.selectedVertices.map (fun v => v.position)

/-! ## IEEE 754 arithmetic -/

/-- The value of a `float` or a `double`: a finite number, an infinity or a
NaN.  The two zeros are one value here. -/
inductive Flt where
  | finite (q : ℚ)
  | posInf
  | negInf
  | nan
deriving DecidableEq, Repr

instance (n : Nat) : OfNat Flt n :=
  ⟨.finite n⟩

namespace IEEE

/-- A binary interchange format: the number of significand bits and the largest
exponent. -/
structure Format where
  prec : Nat
  emax : Int

/-- The format of `float`. -/
def binary32 : Format := ⟨24, 127⟩

/-- The format of `double`. -/
def binary64 : Format := ⟨53, 1023⟩

/-- The power `2^e` for an integer `e`. -/
def pow2 (e : Int) : ℚ :=
  if 0 ≤ e then ((2 ^ e.toNat : Nat) : ℚ) else 1 / ((2 ^ (-e).toNat : Nat) : ℚ)

/-- The largest finite value of a format, `(2^prec - 1) * 2^(emax - prec + 1)`. -/
def Format.maxFinite (fmt : Format) : ℚ :=
  ((2 ^ fmt.prec - 1 : Nat) : ℚ) * pow2 (fmt.emax - (fmt.prec : Int) + 1)

/-- The number of halvings that bring `n` below `2`, at most `fuel` of them. -/
def natLog2Aux : Nat → Nat → Nat
  | 0, _ => 0
  | fuel + 1, n => if n < 2 then 0 else natLog2Aux fuel (n / 2) + 1

/-- The exponent `k` with `2^k <= n < 2^(k+1)`, for `n` other than zero. -/
def natLog2 (n : Nat) : Nat :=
  natLog2Aux n n

/-- The exponent `e` with `2^e <= |q| < 2^(e+1)`, for `q` other than zero. -/
def floorLog2 (q : ℚ) : Int :=
  let e0 : Int := (natLog2 q.num.natAbs : Int) - (natLog2 q.den : Int)
  if pow2 e0 ≤ |q| then e0 else e0 - 1

/-- The integer nearest to `x`, the even one of the two when `x` is half-way. -/
def roundHalfEven (x : ℚ) : Int :=
  let f := ⌊x⌋
  let r := x - (f : ℚ)
  if r < 1 / 2 then f else if 1 / 2 < r then f + 1 else if f % 2 = 0 then f else f + 1

/-- Rounding of a rational to a format, to nearest with ties to even: the result
is a multiple of the quantum of the binade of `q` (of the smallest binade for a
subnormal), and an infinity when it exceeds the largest finite value. -/
def round (fmt : Format) (q : ℚ) : Flt :=
  if q = 0 then .finite 0
  else
    let e := max (floorLog2 q) (1 - fmt.emax)
    let quantum : ℚ := pow2 (e - (fmt.prec : Int) + 1)
    let r : ℚ := (roundHalfEven (|q| / quantum) : ℚ) * quantum
    if fmt.maxFinite < r then (if 0 < q then .posInf else .negInf)
    else .finite (if 0 < q then r else -r)

/-- Negation. -/
def neg : Flt → Flt
  | .finite a => .finite (-a)
  | .posInf => .negInf
  | .negInf => .posInf
  | .nan => .nan

/-- Addition in a format. -/
def add (fmt : Format) : Flt → Flt → Flt
  | .nan, _ => .nan
  | _, .nan => .nan
  | .posInf, .negInf => .nan
  | .negInf, .posInf => .nan
  | .posInf, _ => .posInf
  | _, .posInf => .posInf
  | .negInf, _ => .negInf
  | _, .negInf => .negInf
  | .finite a, .finite b => round fmt (a + b)

/-- Subtraction in a format. -/
def sub (fmt : Format) (a b : Flt) : Flt :=
  add fmt a (neg b)

/-- The sign of a value as `1`, `0` or `-1`; a NaN has none. -/
def sign : Flt → Int
  | .finite a => if 0 < a then 1 else if a < 0 then -1 else 0
  | .posInf => 1
  | .negInf => -1
  | .nan => 0

/-- The infinity of a sign. -/
def infOfSign (s : Int) : Flt :=
  if 0 ≤ s then .posInf else .negInf

/-- Multiplication in a format. -/
def mul (fmt : Format) : Flt → Flt → Flt
  | .nan, _ => .nan
  | _, .nan => .nan
  | .finite a, .finite b => round fmt (a * b)
  | a, b => if sign a * sign b = 0 then .nan else infOfSign (sign a * sign b)

/-- Division in a format.  A zero divisor counts as positive. -/
def div (fmt : Format) : Flt → Flt → Flt
  | .nan, _ => .nan
  | _, .nan => .nan
  | .finite a, .finite b =>
    if b = 0 then (if a = 0 then .nan else infOfSign (sign (.finite a)))
    else round fmt (a / b)
  | .finite _, _ => .finite 0
  | a, .finite b => infOfSign (sign a * (if b < 0 then -1 else 1))
  | _, _ => .nan

/-- The integer square root by bisection, in at most `fuel` steps:
`lo^2 <= n < hi^2` throughout. -/
def natSqrtAux : Nat → Nat → Nat → Nat → Nat
  | 0, _, lo, _ => lo
  | fuel + 1, n, lo, hi =>
    if hi ≤ lo + 1 then lo
    else
      let mid := (lo + hi) / 2
      if mid * mid ≤ n then natSqrtAux fuel n mid hi else natSqrtAux fuel n lo mid

/-- The integer square root, the largest `m` with `m^2 <= n`. -/
def natSqrt (n : Nat) : Nat :=
  natSqrtAux (n + 1) n 0 (n + 1)

/-- The square root of a positive rational rounded to a format. -/
def roundSqrt (fmt : Format) (a : ℚ) : Flt :=
  let e := max (Int.fdiv (floorLog2 a) 2) (1 - fmt.emax)
  let quantum : ℚ := pow2 (e - (fmt.prec : Int) + 1)
  let x : ℚ := a / (quantum * quantum)
  let m : Nat := natSqrt ⌊x⌋.toNat
  let half : ℚ := ((m : ℚ) + 1 / 2) * ((m : ℚ) + 1 / 2)
  let n : Nat := if x < half then m else if half < x then m + 1 else if m % 2 = 0 then m else m + 1
  let r : ℚ := (n : ℚ) * quantum
  if fmt.maxFinite < r then .posInf else .finite r

/-- The square root in a format. -/
def sqrt (fmt : Format) : Flt → Flt
  | .nan => .nan
  | .posInf => .posInf
  | .negInf => .nan
  | .finite a => if a < 0 then .nan else if a = 0 then .finite 0 else roundSqrt fmt a

/-- The comparison `a < b`: false as soon as one side is a NaN. -/
def lt : Flt → Flt → Bool
  | .finite a, .finite b => decide (a < b)
  | .finite _, .posInf => true
  | .negInf, .finite _ => true
  | .negInf, .posInf => true
  | _, _ => false

/-- Conversion to a format (`static_cast`). -/
def cast (fmt : Format) : Flt → Flt
  | .finite a => round fmt a
  | v => v

/-- The sum of three terms in a format, evaluated as `a + (b + c)`.  Eigen
fixes the order of the additions, which the source does not show; where a
theorem below evaluates such a sum, at most one of its terms is not zero or the
sum is exact, so every order of the additions gives the same value. -/
def sum3 (fmt : Format) (a b c : Flt) : Flt :=
  add fmt a (add fmt b c)

/-- The norm of a vector in a format, `norm()`: the square root of the sum of
the squares, every operation rounded. -/
def norm (fmt : Format) (v : Vec3 Flt) : Flt :=
  sqrt fmt (sum3 fmt (mul fmt v.x v.x) (mul fmt v.y v.y) (mul fmt v.z v.z))

/-- The difference of two vectors in a format. -/
def vsub (fmt : Format) (a b : Vec3 Flt) : Vec3 Flt :=
  ⟨sub fmt a.x b.x, sub fmt a.y b.y, sub fmt a.z b.z⟩

/-- The product `T * v` of an `Affine3` and a `Vector3` in `double`: the linear
part applied to the vector, then the translation added. -/
def transform (T : Affine3 Flt) (v : Vec3 Flt) : Vec3 Flt :=
  let f := binary64
  ⟨add f (sum3 f (mul f T.m00 v.x) (mul f T.m01 v.y) (mul f T.m02 v.z)) T.tx,
   add f (sum3 f (mul f T.m10 v.x) (mul f T.m11 v.y) (mul f T.m12 v.z)) T.ty,
   add f (sum3 f (mul f T.m20 v.x) (mul f T.m21 v.y) (mul f T.m22 v.z)) T.tz⟩

/-- The cofactor `a * d - b * c` in `double`. -/
def cofactor (a d b c : Flt) : Flt :=
  sub binary64 (mul binary64 a d) (mul binary64 b c)

/-- The result of `T.inverse()` in `double`, as Eigen computes the inverse of an
affine transform: the cofactors of the 3x3 linear part times the reciprocal of
its determinant, and minus the new linear part applied to the translation.  For
a singular linear part the reciprocal is an infinity and every entry is an
infinity or a NaN. -/
def inverse (T : Affine3 Flt) : Affine3 Flt :=
  let f := binary64
  let c00 := cofactor T.m11 T.m22 T.m12 T.m21
  let c10 := cofactor T.m21 T.m02 T.m22 T.m01
  let c20 := cofactor T.m01 T.m12 T.m02 T.m11
  let det := sum3 f (mul f c00 T.m00) (mul f c10 T.m10) (mul f c20 T.m20)
  let invdet := div f 1 det
  let i00 := mul f c00 invdet
  let i01 := mul f c10 invdet
  let i02 := mul f c20 invdet
  let i10 := mul f (cofactor T.m12 T.m20 T.m10 T.m22) invdet
  let i11 := mul f (cofactor T.m22 T.m00 T.m20 T.m02) invdet
  let i12 := mul f (cofactor T.m02 T.m10 T.m00 T.m12) invdet
  let i20 := mul f (cofactor T.m10 T.m21 T.m11 T.m20) invdet
  let i21 := mul f (cofactor T.m20 T.m01 T.m21 T.m00) invdet
  let i22 := mul f (cofactor T.m00 T.m11 T.m01 T.m10) invdet
  ⟨i00, i01, i02, i10, i11, i12, i20, i21, i22,
   neg (sum3 f (mul f i00 T.tx) (mul f i01 T.ty) (mul f i02 T.tz)),
   neg (sum3 f (mul f i10 T.tx) (mul f i11 T.ty) (mul f i12 T.tz)),
   neg (sum3 f (mul f i20 T.tx) (mul f i21 T.ty) (mul f i22 T.tz))⟩

/-- The conversion of a vector to `float`, component by component. -/
def castFloat (v : Vec3 Flt) : Vec3 Flt :=
  ⟨cast binary32 v.x, cast binary32 v.y, cast binary32 v.z⟩

end IEEE

/-- The arithmetic of the source on IEEE 754 values: `float` is binary32,
`double` is binary64, every operation is rounded to nearest, ties to even. -/
instance : Arith Flt where
  lt := IEEE.lt
  fltMax := .finite IEEE.binary32.maxFinite
  threshold := IEEE.round IEEE.binary64 (1 / 100)
  inverse := IEEE.inverse
  transform := IEEE.transform
  castFloat := IEEE.castFloat
  distanceFloat := fun a b => IEEE.norm IEEE.binary32 (IEEE.vsub IEEE.binary32 a b)
  distanceDouble := fun a b => IEEE.norm IEEE.binary64 (IEEE.vsub IEEE.binary64 a b)
  lt_irrefl := by
    intro a
    cases a <;> simp [IEEE.lt]
  lt_trans := by
    intro a b c
    cases a <;> cases b <;> cases c <;> simp [IEEE.lt]
    exact fun h1 h2 => lt_trans h1 h2
  lt_total := by
    intro a b c
    cases a <;> cases b <;> cases c <;> simp [IEEE.lt]
    · rename_i x y z
      exact fun _ _ => lt_trichotomy x y
    · rename_i x y
      exact lt_trichotomy x y

/-! ## Concrete inputs -/

/-- The `double` nearest to a rational. -/
def double (q : ℚ) : Flt :=
  IEEE.round IEEE.binary64 q

/-- The vertex buffer `[(0,0,0), (1,0,0), (2,0,0)]`. -/
def exampleVertices : List (Vec3 Flt) :=
  [⟨0, 0, 0⟩, ⟨1, 0, 0⟩, ⟨2, 0, 0⟩]

/-- A buffer whose only vertex is `(2^64, 0, 0)`. -/
def hugeVertices : List (Vec3 Flt) :=
  [⟨.finite (2 ^ 64), 0, 0⟩]

/-- The buffer `[(2^-80, 0, 0), (0, 0, 0)]`. -/
def tinyVertices : List (Vec3 Flt) :=
  [⟨.finite (1 / 2 ^ 80), 0, 0⟩, ⟨0, 0, 0⟩]

/-- The buffer `[(131072, 0, 0), (131072.015625, 0.01513671875, 0)]`; every
coordinate is a `float`. -/
def distantVertices : List (Vec3 Flt) :=
  [⟨131072, 0, 0⟩, ⟨.finite (131072 + 1 / 64), .finite (31 / 2048), 0⟩]

/-- The pick point `(131072.009765625, 0, 0)`; its coordinates are `double`s. -/
def distantPoint : Vec3 Flt :=
  ⟨.finite (131072 + 5 / 512), 0, 0⟩

/-- The uniform scaling by `2^-80`. -/
def tinyScale : Affine3 Flt :=
  ⟨.finite (1 / 2 ^ 80), 0, 0, 0, .finite (1 / 2 ^ 80), 0, 0, 0, .finite (1 / 2 ^ 80), 0, 0, 0⟩

/-- The translation by `(2^-30, 0, 0)`. -/
def smallShift : Affine3 Flt :=
  ⟨1, 0, 0, 0, 1, 0, 0, 0, 1, .finite (1 / 2 ^ 30), 0, 0⟩

/-- An event of widget `0` in edit mode with active mode `0`: the pointer is at
`point` over the path `[1, 2]`, node `2` is a shape with `exampleVertices`, no
node is transformed, the left button is the one pressed, and the host names
node `1` as target. -/
def exampleEvent (point : Vec3 Flt) (modifiers : Nat) : SceneWidgetEvent Flt where
  sceneWidget := 0
  activeCustomMode := 0
  isEditMode := true
  nodePath := [1, 2]
  point := point
  button := LeftButton
  modifiers := modifiers
  asShape := fun node => if node = 2 then some ⟨some ⟨some exampleVertices⟩⟩ else none
  calcTotalTransform := fun _ => Affine3.identity
  getTargetSceneNodes := [1]

/-- The event `exampleEvent ⟨0, 0, 0⟩ 0` over a scene in which the shape node
`2` carries no mesh. -/
def meshlessEvent : SceneWidgetEvent Flt :=
  { exampleEvent ⟨0, 0, 0⟩ 0 with
    asShape := fun node => if node = 2 then some ⟨none⟩ else none }

/-- The event `exampleEvent ⟨0, 0, 0⟩ 0` over a scene in which the mesh of the
shape node `2` has no vertex array. -/
def vertexlessEvent : SceneWidgetEvent Flt :=
  { exampleEvent ⟨0, 0, 0⟩ 0 with
    asShape := fun node => if node = 2 then some ⟨some ⟨none⟩⟩ else none }

/-- A pointer move in edit mode over the path `[1, 2]`: node `2` is a shape with
the one vertex `(1, 0, 0)`, the path translates by `(2^-30, 0, 0)`, and the
pointer is at `(1 + 2^-30, 0, 0)`, the world position of the vertex. -/
def shiftedEvent : SceneWidgetEvent Flt :=
  { exampleEvent ⟨.finite (1 + 1 / 2 ^ 30), 0, 0⟩ 0 with
    asShape := fun node => if node = 2 then some ⟨some ⟨some [⟨1, 0, 0⟩]⟩⟩ else none
    calcTotalTransform := fun _ => smallShift }

/-- Activate the mode, press on vertex 0, control-press on vertex 1, and move
back over vertex 0. -/
def exampleCalls : List (Event Flt) :=
  [.sceneModeChanged (exampleEvent ⟨0, 0, 0⟩ 0),
   .pointerMove (exampleEvent ⟨0, 0, 0⟩ 0),
   .buttonPress (exampleEvent ⟨0, 0, 0⟩ 0),
   .pointerMove (exampleEvent ⟨1, 0, 0⟩ ControlModifier),
   .buttonPress (exampleEvent ⟨1, 0, 0⟩ ControlModifier),
   .pointerMove (exampleEvent ⟨0, 0, 0⟩ ControlModifier)]

/-- The state after the first call of `exampleCalls`: the mode is active on
widget `0` with target node `1`. -/
def activatedState : Impl Flt :=
  { Impl.init ⟨0, 0, 0⟩ with
    sceneWidgetInfos := [0]
    targetNodes := {1}
    overlayParents := [0]
    nodeDecorations := [(0, 1)] }

/-- The state after two calls of `exampleCalls`: vertex 0 is hovered. -/
def hoverFirstState : Impl Flt :=
  { activatedState with
    pointedVertexArray := [⟨0, 0, 0⟩]
    pointedVertex := ⟨some ⟨0, [1, 2]⟩, 0, ⟨0, 0, 0⟩⟩
    pointedVertexArrayUpdates := 1
    nextAddr := 1 }

/-- The state after three calls of `exampleCalls`: vertex 0 is selected. -/
def selectedFirstState : Impl Flt :=
  { hoverFirstState with
    selectedVertexArray := [⟨0, 0, 0⟩]
    selectedVertices := [⟨some ⟨0, [1, 2]⟩, 0, ⟨0, 0, 0⟩⟩]
    selectedVertexArrayUpdates := 1 }

/-- The state after four calls of `exampleCalls`: vertex 1 is hovered. -/
def hoverSecondState : Impl Flt :=
  { selectedFirstState with
    pointedVertexArray := [⟨1, 0, 0⟩]
    pointedVertex := ⟨some ⟨1, [1, 2]⟩, 1, ⟨1, 0, 0⟩⟩
    pointedVertexArrayUpdates := 2
    nextAddr := 2 }

/-- The state after five calls of `exampleCalls`: vertices 0 and 1 are
selected, and the hovered identity has taken the path pointer of the first
selected element. -/
def selectedBothState : Impl Flt :=
  { hoverSecondState with
    selectedVertexArray := [⟨0, 0, 0⟩, ⟨1, 0, 0⟩]
    pointedVertex := ⟨some ⟨0, [1, 2]⟩, 1, ⟨1, 0, 0⟩⟩
    selectedVertices := [⟨some ⟨0, [1, 2]⟩, 0, ⟨0, 0, 0⟩⟩, ⟨some ⟨0, [1, 2]⟩, 1, ⟨1, 0, 0⟩⟩]
    selectedVertexArrayUpdates := 2 }

/-- The state after `exampleCalls`: vertices 0 and 1 are selected, in this
order, and vertex 0 is hovered. -/
def exampleState : Impl Flt :=
  { selectedBothState with
    pointedVertexArray := [⟨0, 0, 0⟩]
    pointedVertex := ⟨some ⟨2, [1, 2]⟩, 0, ⟨0, 0, 0⟩⟩
    pointedVertexArrayUpdates := 3
    nextAddr := 3 }

/-! ## Reference values of the IEEE 754 arithmetic -/

/-- The arithmetic on known values: `FLT_MAX`, the `double` `0.01`, the `float`
`0.1f`, the square roots of `2`, the quotient `1 / 3`, the ties to even at
`2^24`, the underflow at `2^-150`, the overflow of `2^64 * 2^64`, the division
by zero and the comparison with a NaN. -/
theorem IEEE.reference_values :
    (Arith.fltMax : Flt) = .finite 340282346638528859811704183484516925440 ∧
    (Arith.threshold : Flt) = .finite (5764607523034235 / 2 ^ 59) ∧
    IEEE.round IEEE.binary32 (1 / 10) = .finite (13421773 / 2 ^ 27) ∧
    IEEE.sqrt IEEE.binary32 2 = .finite (11863283 / 2 ^ 23) ∧
    IEEE.sqrt IEEE.binary64 2 = .finite (6369051672525773 / 2 ^ 52) ∧
    IEEE.div IEEE.binary64 1 3 = .finite (6004799503160661 / 2 ^ 54) ∧
    IEEE.round IEEE.binary32 16777217 = 16777216 ∧
    IEEE.round IEEE.binary32 16777219 = 16777220 ∧
    IEEE.round IEEE.binary32 (1 / 2 ^ 150) = 0 ∧
    IEEE.round IEEE.binary32 (3 / 2 ^ 150) = .finite (1 / 2 ^ 148) ∧
    IEEE.mul IEEE.binary32 (.finite (2 ^ 64)) (.finite (2 ^ 64)) = .posInf ∧
    IEEE.div IEEE.binary64 1 0 = .posInf ∧
    IEEE.mul IEEE.binary64 0 .posInf = .nan ∧
    IEEE.lt .nan .posInf = false := by
  refine ⟨by decide!, by decide!, by decide!, by decide!, by decide!, by decide!, by decide!,
    by decide!, by decide!, by decide!, by decide!, by decide!, by decide!, by decide!⟩

/-! ## The scan of findPointedVertex -/

theorem Arith.lt_asymm {K : Type} [Arith K] (a b : K) (h : Arith.lt a b = true) :
    Arith.lt b a = false := by
  cases hba : Arith.lt b a with
  | false => rfl
  | true =>
    have := Arith.lt_trans a b a h hba
    rw [Arith.lt_irrefl] at this
    exact absurd this (by simp)

/-- What the loop computes: either no vertex has a distance below the current
minimum and the accumulator is returned as it is, or the result is a vertex
whose distance is below the minimum the loop started with, no vertex has a
distance below its distance, and the distance of every earlier vertex is neither
below nor equal to it. -/
theorem scanVertices_spec {K : Type} [Arith K] (localPoint : Vec3 K)
    (vs : List (Vec3 K)) (i : Nat) (idx : Int) (md : K) :
    (scanVertices localPoint vs i (idx, md) = (idx, md) ∧
        ∀ v ∈ vs, Arith.lt (Arith.distanceFloat v localPoint) md = false) ∨
    (∃ (k : Nat) (v : Vec3 K), vs[k]? = some v ∧
        scanVertices localPoint vs i (idx, md)
          = (((i + k : Nat) : Int), Arith.distanceFloat v localPoint) ∧
        Arith.lt (Arith.distanceFloat v localPoint) md = true ∧
        (∀ (j : Nat) (w : Vec3 K), vs[j]? = some w →
          Arith.lt (Arith.distanceFloat w localPoint) (Arith.distanceFloat v localPoint)
            = false) ∧
        (∀ (j : Nat) (w : Vec3 K), j < k → vs[j]? = some w →
          Arith.lt (Arith.distanceFloat w localPoint) (Arith.distanceFloat v localPoint)
            = false ∧
          Arith.distanceFloat w localPoint ≠ Arith.distanceFloat v localPoint)) := by
  induction vs generalizing i idx md with
  | nil => left; simp [scanVertices]
  | cons u us ih =>
    cases hlt : Arith.lt (Arith.distanceFloat u localPoint) md with
    | true =>
      have hs : scanVertices localPoint (u :: us) i (idx, md)
          = scanVertices localPoint us (i + 1) ((i : Int), Arith.distanceFloat u localPoint) := by
        simp [scanVertices, hlt]
      right
      rcases ih (i + 1) (i : Int) (Arith.distanceFloat u localPoint) with
        ⟨h1, h2⟩ | ⟨k, v, hk, h1, h2, h3, h4⟩
      · refine ⟨0, u, by simp, ?_, hlt, ?_, ?_⟩
        · rw [hs, h1]; simp
        · intro j w hj
          cases j with
          | zero => simp at hj; rw [← hj]; exact Arith.lt_irrefl _
          | succ j =>
            simp at hj
            exact h2 w (List.getElem?_mem hj)
        · intro j w hj; omega
      · refine ⟨k + 1, v, by simpa using hk, ?_, Arith.lt_trans _ _ _ h2 hlt, ?_, ?_⟩
        · rw [hs, h1]; congr 2; omega
        · intro j w hj
          cases j with
          | zero => simp at hj; rw [← hj]; exact Arith.lt_asymm _ _ h2
          | succ j => simp at hj; exact h3 j w hj
        · intro j w hjk hj
          cases j with
          | zero =>
            simp at hj
            rw [← hj]
            refine ⟨Arith.lt_asymm _ _ h2, ?_⟩
            intro heq
            rw [heq, Arith.lt_irrefl] at h2
            exact absurd h2 (by simp)
          | succ j => simp at hj; exact h4 j w (by omega) hj
    | false =>
      have hs : scanVertices localPoint (u :: us) i (idx, md)
          = scanVertices localPoint us (i + 1) (idx, md) := by
        simp [scanVertices, hlt]
      rcases ih (i + 1) idx md with ⟨h1, h2⟩ | ⟨k, v, hk, h1, h2, h3, h4⟩
      · left
        refine ⟨by rw [hs, h1], ?_⟩
        intro v hv
        rcases List.mem_cons.1 hv with rfl | hv
        · exact hlt
        · exact h2 v hv
      · right
        have hu : Arith.lt (Arith.distanceFloat u localPoint) (Arith.distanceFloat v localPoint)
            = false := by
          cases huv : Arith.lt (Arith.distanceFloat u localPoint)
              (Arith.distanceFloat v localPoint) with
          | false => rfl
          | true =>
            have := Arith.lt_trans _ _ _ huv h2
            rw [hlt] at this
            exact absurd this (by simp)
        refine ⟨k + 1, v, by simpa using hk, ?_, h2, ?_, ?_⟩
        · rw [hs, h1]; congr 2; omega
        · intro j w hj
          cases j with
          | zero => simp at hj; rw [← hj]; exact hu
          | succ j => simp at hj; exact h3 j w hj
        · intro j w hjk hj
          cases j with
          | zero =>
            simp at hj
            rw [← hj]
            refine ⟨hu, ?_⟩
            intro heq
            rw [heq, h2] at hlt
            exact absurd hlt (by simp)
          | succ j => simp at hj; exact h4 j w (by omega) hj

/-- The candidate is `-1` exactly when no vertex has a distance to the local
point that is below `FLT_MAX`. -/
theorem findMinDistanceIndex_eq_neg_one_iff {K : Type} [Arith K]
    (V : List (Vec3 K)) (localPoint : Vec3 K) :
    findMinDistanceIndex V localPoint = -1 ↔
      ∀ v ∈ V, Arith.lt (Arith.distanceFloat v localPoint) Arith.fltMax = false := by
  unfold findMinDistanceIndex
  rcases scanVertices_spec localPoint V 0 (-1) Arith.fltMax with
    ⟨h1, h2⟩ | ⟨k, v, hk, h1, h2, h3, h4⟩
  · rw [h1]; simp only [true_iff]; exact h2
  · rw [h1]
    constructor
    · intro h; simp at h
    · intro h
      rw [h v (List.getElem?_mem hk)] at h2
      exact absurd h2 (by simp)

/-- A candidate other than `-1` is a vertex whose distance to the local point is
below `FLT_MAX`, with no vertex of a distance below its distance and no earlier
vertex of a distance below or equal to it. -/
theorem findMinDistanceIndex_of_near {K : Type} [Arith K]
    (V : List (Vec3 K)) (localPoint : Vec3 K)
    (h : ∃ v ∈ V, Arith.lt (Arith.distanceFloat v localPoint) Arith.fltMax = true) :
    ∃ (i : Nat) (v : Vec3 K), findMinDistanceIndex V localPoint = (i : Int) ∧ V[i]? = some v ∧
      Arith.lt (Arith.distanceFloat v localPoint) Arith.fltMax = true ∧
      (∀ (j : Nat) (w : Vec3 K), V[j]? = some w →
        Arith.lt (Arith.distanceFloat w localPoint) (Arith.distanceFloat v localPoint)
          = false) ∧
      (∀ (j : Nat) (w : Vec3 K), j < i → V[j]? = some w →
        Arith.lt (Arith.distanceFloat w localPoint) (Arith.distanceFloat v localPoint)
          = false ∧
        Arith.distanceFloat w localPoint ≠ Arith.distanceFloat v localPoint) := by
  unfold findMinDistanceIndex
  rcases scanVertices_spec localPoint V 0 (-1) Arith.fltMax with
    ⟨_, h2⟩ | ⟨k, v, hk, h1, h2, h3, h4⟩
  · obtain ⟨v, hv, hlt⟩ := h
    rw [h2 v hv] at hlt
    exact absurd hlt (by simp)
  · refine ⟨k, v, ?_, hk, h2, h3, h4⟩
    rw [h1]; simp

/-- When `findPointedVertex` returns `true`, and with which index: the distance
of the vertex at the index to the local point is below `FLT_MAX`, no vertex has
a distance below it, no earlier vertex a distance below or equal to it, and the
world-space distance from the transformed vertex to the pick point is below the
threshold.  All distances are the values the source computes. -/
theorem findPointedVertex_eq_some_iff {K : Type} [Arith K]
    (V : List (Vec3 K)) (T : Affine3 K) (p : Vec3 K) (i : Nat) :
    findPointedVertex V T p = some i ↔
      ∃ v : Vec3 K, V[i]? = some v ∧
        Arith.lt (Arith.distanceFloat v (Arith.castFloat (Arith.inverse T * p))) Arith.fltMax
          = true ∧
        (∀ (j : Nat) (w : Vec3 K), V[j]? = some w →
          Arith.lt (Arith.distanceFloat w (Arith.castFloat (Arith.inverse T * p)))
            (Arith.distanceFloat v (Arith.castFloat (Arith.inverse T * p))) = false) ∧
        (∀ (j : Nat) (w : Vec3 K), j < i → V[j]? = some w →
          Arith.lt (Arith.distanceFloat w (Arith.castFloat (Arith.inverse T * p)))
            (Arith.distanceFloat v (Arith.castFloat (Arith.inverse T * p))) = false ∧
          Arith.distanceFloat w (Arith.castFloat (Arith.inverse T * p))
            ≠ Arith.distanceFloat v (Arith.castFloat (Arith.inverse T * p))) ∧
        Arith.lt (Arith.distanceDouble (T * v) p) Arith.threshold = true := by
  simp only [findPointedVertex]
  generalize Arith.castFloat (Arith.inverse T * p) = lp
  by_cases hnear : ∃ v ∈ V, Arith.lt (Arith.distanceFloat v lp) Arith.fltMax = true
  · obtain ⟨k, u, hk, hu, hlt, hmin, hlow⟩ := findMinDistanceIndex_of_near V lp hnear
    simp only [hk, Int.natCast_nonneg, if_true, Int.toNat_ofNat, hu]
    constructor
    · intro h
      split at h
      · rename_i hthr
        simp only [Option.some.injEq] at h
        subst h
        exact ⟨u, hu, hlt, hmin, hlow, hthr⟩
      · exact absurd h (by simp)
    · rintro ⟨v, hv, hvlt, hvmin, hvlow, hthr⟩
      have hik : i = k := by
        rcases Nat.lt_trichotomy i k with h | h | h
        · exfalso
          obtain ⟨h1, h2⟩ := hlow i v h hv
          have h3 := hvmin k u hu
          rcases Arith.lt_total _ _ _ hvlt hlt with h4 | h4 | h4
          · rw [h1] at h4; exact absurd h4 (by simp)
          · exact h2 h4
          · rw [h3] at h4; exact absurd h4 (by simp)
        · exact h
        · exfalso
          obtain ⟨h1, h2⟩ := hvlow k u h hu
          have h3 := hmin i v hv
          rcases Arith.lt_total _ _ _ hlt hvlt with h4 | h4 | h4
          · rw [h1] at h4; exact absurd h4 (by simp)
          · exact h2 h4
          · rw [h3] at h4; exact absurd h4 (by simp)
      subst hik
      have huv : u = v := by
        rw [hu] at hv; exact Option.some.inj hv
      subst huv
      simp [hthr]
  · have hneg : findMinDistanceIndex V lp = -1 := by
      rw [findMinDistanceIndex_eq_neg_one_iff]
      intro v hv
      cases hc : Arith.lt (Arith.distanceFloat v lp) Arith.fltMax with
      | false => rfl
      | true => exact absurd ⟨v, hv, hc⟩ hnear
    simp only [hneg]
    constructor
    · intro h; simp at h
    · rintro ⟨v, hv, hlt, _⟩
      exact absurd ⟨v, List.getElem?_mem hv, hlt⟩ hnear

/-! ## VertexInfo equality -/

/-- On two identities whose path pointers do not alias different paths,
`operator==` is equality of path contents and of vertex indices. -/
theorem VertexInfo.operator_eq_iff {K : Type} (a b : VertexInfo K)
    (h : ∀ p q : SharedPath, a.path = some p → b.path = some q → p.addr = q.addr → p.val = q.val) :
    a.operator_eq b = true ↔ a.sameVertex b := by
  unfold VertexInfo.operator_eq VertexInfo.sameVertex
  cases ha : a.path with
  | none =>
    cases hb : b.path with
    | none => simp [ptrEq, pathContentEq]
    | some q => simp [ptrEq, pathContentEq]
  | some p =>
    cases hb : b.path with
    | none => simp [ptrEq, pathContentEq]
    | some q =>
      have hpq := h p q ha hb
      simp only [ptrEq, pathContentEq, Option.map_some', Option.some.injEq]
      by_cases hv : p.val = q.val
      · simp [hv]
      · have : ¬ p.addr = q.addr := fun h1 => hv (hpq h1)
        simp [hv, this]

theorem VertexInfo.operator_eq_self {K : Type} (a : VertexInfo K) : a.operator_eq a = true := by
  unfold VertexInfo.operator_eq
  cases ha : a.path with
  | none => simp [ptrEq]
  | some p => simp [ptrEq]

theorem VertexInfo.sameVertex_symm {K : Type} {a b : VertexInfo K} (h : a.sameVertex b) :
    b.sameVertex a :=
  ⟨h.1.symm, h.2.symm⟩

theorem VertexInfo.sameVertex_trans {K : Type} {a b c : VertexInfo K} (h1 : a.sameVertex b)
    (h2 : b.sameVertex c) : a.sameVertex c :=
  ⟨h1.1.trans h2.1, h1.2.trans h2.2⟩

/-! ## The branches of onButtonPressEvent -/

theorem Impl.onButtonPressEvent_other_button {K : Type} (s : Impl K) (e : SceneWidgetEvent K)
    (hb : e.button ≠ LeftButton) : s.onButtonPressEvent e = some (false, s) := by
  simp [Impl.onButtonPressEvent, hb]

theorem Impl.onButtonPressEvent_invalid_control {K : Type} (s : Impl K) (e : SceneWidgetEvent K)
    (hb : e.button = LeftButton) (hv : s.pointedVertex.isValid = false)
    (hc : e.controlHeld = true) : s.onButtonPressEvent e = some (true, s) := by
  simp [Impl.onButtonPressEvent, hb, hv, hc]

theorem Impl.onButtonPressEvent_invalid_plain {K : Type} (s : Impl K) (e : SceneWidgetEvent K)
    (hb : e.button = LeftButton) (hv : s.pointedVertex.isValid = false)
    (hc : e.controlHeld = false) :
    s.onButtonPressEvent e =
      if s.selectedVertices.isEmpty then some (true, s)
      else some (true, Impl.updateSelectedVertexArray { s with selectedVertices := [] }) := by
  cases h : s.selectedVertices.isEmpty <;> simp [Impl.onButtonPressEvent, hb, hv, hc, h]

theorem Impl.onButtonPressEvent_valid_plain {K : Type} (s : Impl K) (e : SceneWidgetEvent K)
    (hb : e.button = LeftButton) (hv : s.pointedVertex.isValid = true)
    (hc : e.controlHeld = false) :
    s.onButtonPressEvent e =
      some (true, Impl.updateSelectedVertexArray { s with selectedVertices := [s.pointedVertex] }) := by
  simp [Impl.onButtonPressEvent, hb, hv, hc, Impl.adoptSharedPath]

theorem Impl.onButtonPressEvent_valid_control_erase {K : Type} (s : Impl K)
    (e : SceneWidgetEvent K) (hb : e.button = LeftButton) (hv : s.pointedVertex.isValid = true)
    (hc : e.controlHeld = true) (i : Nat) (sp : Option SharedPath)
    (hs : Impl.scanSelected s.pointedVertex s.selectedVertices 0 none = some (some i, sp)) :
    s.onButtonPressEvent e =
      some (true, Impl.updateSelectedVertexArray
        { s with selectedVertices := s.selectedVertices.eraseIdx i }) := by
  simp [Impl.onButtonPressEvent, hb, hv, hc, hs]

theorem Impl.onButtonPressEvent_valid_control_append {K : Type} (s : Impl K)
    (e : SceneWidgetEvent K) (hb : e.button = LeftButton) (hv : s.pointedVertex.isValid = true)
    (hc : e.controlHeld = true) (sp : Option SharedPath)
    (hs : Impl.scanSelected s.pointedVertex s.selectedVertices 0 none = some (none, sp)) :
    s.onButtonPressEvent e =
      some (true, Impl.updateSelectedVertexArray
        { s with
          pointedVertex := Impl.adoptSharedPath s.pointedVertex sp
          selectedVertices :=
            s.selectedVertices ++ [Impl.adoptSharedPath s.pointedVertex sp] }) := by
  simp [Impl.onButtonPressEvent, hb, hv, hc, hs]

/-! ## The loop over the selection -/

/-- What the loop of `onButtonPressEvent` computes when the hovered identity and
every selected element have a path: either it stops at the first element equal
to the hovered identity, or no element is equal and the shared path it ends
with is the one it started with or the path of a selected element with the
contents of the hovered path. -/
theorem Impl.scanSelected_spec {K : Type} (pv : VertexInfo K) (q : SharedPath)
    (hq : pv.path = some q) (sel : List (VertexInfo K))
    (hvalid : ∀ e ∈ sel, e.isValid = true) (i : Nat) (sp : Option SharedPath) :
    (∃ (k : Nat) (e : VertexInfo K) (sp1 : Option SharedPath),
        sel[k]? = some e ∧ e.operator_eq pv = true ∧
        (∀ (j : Nat) (e1 : VertexInfo K), j < k → sel[j]? = some e1 → e1.operator_eq pv = false) ∧
        Impl.scanSelected pv sel i sp = some (some (i + k), sp1)) ∨
    ((∀ e ∈ sel, e.operator_eq pv = false) ∧
      ∃ sp1 : Option SharedPath, Impl.scanSelected pv sel i sp = some (none, sp1) ∧
        ∀ p : SharedPath, sp1 = some p →
          sp = some p ∨ ∃ e ∈ sel, e.path = some p ∧ p.val = q.val) := by
  induction sel generalizing i sp with
  | nil =>
    right
    exact ⟨by simp, sp, by simp [Impl.scanSelected], fun p hp => Or.inl hp⟩
  | cons it rest ih =>
    have hrest : ∀ e ∈ rest, e.isValid = true := fun e he => hvalid e (List.mem_cons_of_mem _ he)
    by_cases heq : it.operator_eq pv = true
    · left
      exact ⟨0, it, sp, by simp, heq, by intro j e1 hj; omega, by simp [Impl.scanSelected, heq]⟩
    · have heq1 : it.operator_eq pv = false := by simpa using heq
      have hit : it.isValid = true := hvalid it (List.mem_cons_self _ _)
      obtain ⟨p, hp⟩ : ∃ p, it.path = some p := by
        unfold VertexInfo.isValid at hit
        exact Option.isSome_iff_exists.1 hit
      have key : ∃ sp0 : Option SharedPath,
          Impl.scanSelected pv (it :: rest) i sp = Impl.scanSelected pv rest (i + 1) sp0 ∧
          ∀ p1 : SharedPath, sp0 = some p1 → sp = some p1 ∨ (it.path = some p1 ∧ p1.val = q.val) := by
        cases sp with
        | some x =>
          exact ⟨some x, by simp [Impl.scanSelected, heq1], fun p1 h1 => Or.inl h1⟩
        | none =>
          refine ⟨if p.val == q.val then some p else none, ?_, ?_⟩
          · simp [Impl.scanSelected, heq1, hp, hq]
          · intro p1 h1
            by_cases hv : p.val = q.val
            · simp [hv] at h1
              subst h1
              exact Or.inr ⟨hp, hv⟩
            · simp [hv] at h1
      obtain ⟨sp0, hstep, hsp0⟩ := key
      rcases ih hrest (i + 1) sp0 with ⟨k, e, sp1, hk, he, hfirst, hres⟩ | ⟨hnone, sp1, hres, hsp1⟩
      · left
        refine ⟨k + 1, e, sp1, by simpa using hk, he, ?_, ?_⟩
        · intro j e1 hj hj1
          cases j with
          | zero => simp at hj1; rw [← hj1]; exact heq1
          | succ j => simp at hj1; exact hfirst j e1 (by omega) hj1
        · rw [hstep, hres]; congr 3; omega
      · right
        refine ⟨?_, sp1, by rw [hstep, hres], ?_⟩
        · intro e he
          rcases List.mem_cons.1 he with rfl | he
          · exact heq1
          · exact hnone e he
        · intro p1 h1
          rcases hsp1 p1 h1 with h2 | ⟨e, he, hep, hval⟩
          · rcases hsp0 p1 h2 with h3 | ⟨h3, h4⟩
            · exact Or.inl h3
            · exact Or.inr ⟨it, List.mem_cons_self _ _, h3, h4⟩
          · exact Or.inr ⟨e, List.mem_cons_of_mem _ he, hep, hval⟩

/-! ## Consistency of the reachable states -/

theorem Impl.wellFormed_init {K : Type} (position0 : Vec3 K) :
    (Impl.init position0).WellFormed := by
  constructor <;> simp [Impl.init]

/-- A state whose path pointers all occur in a consistent state, carried by
identities of non-negative index, is consistent as soon as its selection is
valid and duplicate-free and mirrored by the marker array. -/
theorem Impl.WellFormed.of_sources {K : Type} {s s1 : Impl K} (hwf : s.WellFormed)
    (hnext : s.nextAddr ≤ s1.nextAddr)
    (hsrc : ∀ v ∈ s1.pointedVertex :: s1.selectedVertices, ∀ p : SharedPath, v.path = some p →
      0 ≤ v.vertexIndex ∧ ∃ u ∈ s.pointedVertex :: s.selectedVertices, u.path = some p)
    (hsel : ∀ v ∈ s1.selectedVertices, v.isValid = true)
    (hnodup : s1.selectedVertices.Pairwise (fun a b => a.operator_eq b = false))
    (hpi : s1.pointedVertex.path = none → s1.pointedVertex.vertexIndex = -1)
    (harr : s1.selectedVertexArray = s1.selectedVertices.map (fun v => v.position)) :
    s1.WellFormed where
  selected_valid := hsel
  addr_lt := by
    intro v hv p hp
    obtain ⟨_, u, hu, hup⟩ := hsrc v hv p hp
    exact lt_of_lt_of_le (hwf.addr_lt u hu p hup) hnext
  addr_inj := by
    intro a ha b hb p q hp hq hpq
    obtain ⟨_, u, hu, hup⟩ := hsrc a ha p hp
    obtain ⟨_, w, hw, hwq⟩ := hsrc b hb q hq
    exact hwf.addr_inj u hu w hw p q hup hwq hpq
  nodup := hnodup
  pointed_invalid := hpi
  valid_index := by
    intro v hv p hp
    obtain ⟨h0, u, hu, hup⟩ := hsrc v hv p hp
    exact ⟨(hwf.valid_index u hu p hup).1, h0⟩
  array_eq := harr

/-- A state with the hovered identity, the selection, its marker array and the
address counter of a consistent state is consistent. -/
theorem Impl.WellFormed.of_eq {K : Type} {s s1 : Impl K} (hwf : s.WellFormed)
    (h1 : s1.pointedVertex = s.pointedVertex) (h2 : s1.selectedVertices = s.selectedVertices)
    (h3 : s1.selectedVertexArray = s.selectedVertexArray) (h4 : s1.nextAddr = s.nextAddr) :
    s1.WellFormed := by
  refine hwf.of_sources (le_of_eq h4.symm) ?_ ?_ ?_ ?_ ?_
  · intro v hv p hp
    rw [h1, h2] at hv
    exact ⟨(hwf.valid_index v hv p hp).2, v, hv, hp⟩
  · rw [h2]; exact hwf.selected_valid
  · rw [h2]; exact hwf.nodup
  · rw [h1]; exact hwf.pointed_invalid
  · rw [h2, h3]; exact hwf.array_eq

theorem Impl.WellFormed.clear_pointed {K : Type} {s : Impl K} (hwf : s.WellFormed) :
    s.clearPointedVertex.WellFormed := by
  have hpv : s.clearPointedVertex.pointedVertex = ⟨none, -1, s.pointedVertex.position⟩ := by
    unfold Impl.clearPointedVertex; dsimp only; split <;> rfl
  have hsel : s.clearPointedVertex.selectedVertices = s.selectedVertices := by
    unfold Impl.clearPointedVertex; dsimp only; split <;> rfl
  have harr : s.clearPointedVertex.selectedVertexArray = s.selectedVertexArray := by
    unfold Impl.clearPointedVertex; dsimp only; split <;> rfl
  have hnext : s.clearPointedVertex.nextAddr = s.nextAddr := by
    unfold Impl.clearPointedVertex; dsimp only; split <;> rfl
  refine hwf.of_sources (le_of_eq hnext.symm) ?_ ?_ ?_ ?_ ?_
  · intro v hv p hp
    rw [hpv, hsel] at hv
    rcases List.mem_cons.1 hv with rfl | hv
    · simp at hp
    · exact ⟨(hwf.valid_index v (List.mem_cons_of_mem _ hv) p hp).2, v,
        List.mem_cons_of_mem _ hv, hp⟩
  · rw [hsel]; exact hwf.selected_valid
  · rw [hsel]; exact hwf.nodup
  · intro _; rw [hpv]
  · rw [hsel, harr]; exact hwf.array_eq

theorem Impl.WellFormed.set_pointed {K : Type} [Arith K] {s s1 : Impl K}
    (hwf : s.WellFormed) (path : SgNodePath) (vertices : List (Vec3 K)) (T : Affine3 K)
    (i : Nat) (hpath : path ≠ []) (h : s.setPointedVertex path vertices T i = some s1) :
    s1.WellFormed := by
  unfold Impl.setPointedVertex at h
  cases hv : vertices[i]? with
  | none => simp [hv] at h
  | some vi =>
    simp only [hv, Option.some.injEq] at h
    subst h
    constructor
    · exact hwf.selected_valid
    · intro v hv p hp
      rcases List.mem_cons.1 hv with rfl | hv
      · simp at hp; subst hp; simp
      · exact Nat.lt_succ_of_lt (hwf.addr_lt v (List.mem_cons_of_mem _ hv) p hp)
    · intro a ha b hb p q hp hq hpq
      rcases List.mem_cons.1 ha with rfl | ha
      · rcases List.mem_cons.1 hb with rfl | hb
        · simp at hp hq; subst hp; subst hq; rfl
        · simp at hp; subst hp
          have := hwf.addr_lt b (List.mem_cons_of_mem _ hb) q hq
          simp at hpq; omega
      · rcases List.mem_cons.1 hb with rfl | hb
        · simp at hq; subst hq
          have := hwf.addr_lt a (List.mem_cons_of_mem _ ha) p hp
          simp at hpq; omega
        · exact hwf.addr_inj a (List.mem_cons_of_mem _ ha) b (List.mem_cons_of_mem _ hb) p q
            hp hq hpq
    · exact hwf.nodup
    · intro h0; simp at h0
    · intro v hv p hp
      rcases List.mem_cons.1 hv with rfl | hv
      · simp at hp; subst hp; exact ⟨hpath, by simp⟩
      · exact hwf.valid_index v (List.mem_cons_of_mem _ hv) p hp
    · exact hwf.array_eq

/-! ## The branches of onPointerMoveEvent -/

theorem Impl.onPointerMoveEvent_not_edit {K : Type} [Arith K] (s : Impl K)
    (e : SceneWidgetEvent K) (he : e.isEditMode = false) :
    s.onPointerMoveEvent e = some (false, s) := by
  simp [Impl.onPointerMoveEvent, he]

theorem Impl.onPointerMoveEvent_no_target {K : Type} [Arith K] (s : Impl K)
    (e : SceneWidgetEvent K) (he : e.isEditMode = true)
    (ht : ∀ node ∈ e.nodePath, node ∉ s.targetNodes) :
    s.onPointerMoveEvent e = some (true, s.clearPointedVertex) := by
  have h : (e.nodePath.reverse.any (fun node => decide (node ∈ s.targetNodes))) = false := by
    rw [List.any_eq_false]
    intro node hn
    simpa using ht node (List.mem_reverse.1 hn)
  simp [Impl.onPointerMoveEvent, he, h]

theorem Impl.onPointerMoveEvent_not_shape {K : Type} [Arith K] (s : Impl K)
    (e : SceneWidgetEvent K) (he : e.isEditMode = true) (back : SgNodePtr)
    (hb : e.nodePath.getLast? = some back) (hs : e.asShape back = none) :
    s.onPointerMoveEvent e = some (true, s.clearPointedVertex) := by
  unfold Impl.onPointerMoveEvent
  simp only [he, hb, hs, Bool.not_true, Bool.false_eq_true, if_false]
  split <;> rfl

theorem Impl.onPointerMoveEvent_rejected {K : Type} [Arith K] (s : Impl K)
    (e : SceneWidgetEvent K) (he : e.isEditMode = true)
    (ht : ∃ node ∈ e.nodePath, node ∈ s.targetNodes) (back : SgNodePtr) (shape : SgShape K)
    (mesh : SgMesh K) (vertices : List (Vec3 K)) (hb : e.nodePath.getLast? = some back)
    (hs : e.asShape back = some shape) (hm : shape.mesh = some mesh)
    (hv : mesh.vertices = some vertices)
    (hf : findPointedVertex vertices (e.calcTotalTransform e.nodePath) e.point = none) :
    s.onPointerMoveEvent e = some (true, s.clearPointedVertex) := by
  have h : (e.nodePath.reverse.any (fun node => decide (node ∈ s.targetNodes))) = true := by
    rw [List.any_eq_true]
    obtain ⟨node, hn, hnt⟩ := ht
    exact ⟨node, List.mem_reverse.2 hn, by simpa using hnt⟩
  simp only [Impl.onPointerMoveEvent, he, h, hb, hs, hm, hv, hf, Bool.not_true,
    Bool.false_eq_true, if_false, if_true]

theorem Impl.onPointerMoveEvent_accepted {K : Type} [Arith K] (s : Impl K)
    (e : SceneWidgetEvent K) (he : e.isEditMode = true)
    (ht : ∃ node ∈ e.nodePath, node ∈ s.targetNodes) (back : SgNodePtr) (shape : SgShape K)
    (mesh : SgMesh K) (vertices : List (Vec3 K)) (hb : e.nodePath.getLast? = some back)
    (hs : e.asShape back = some shape) (hm : shape.mesh = some mesh)
    (hv : mesh.vertices = some vertices) (i : Nat)
    (hf : findPointedVertex vertices (e.calcTotalTransform e.nodePath) e.point = some i) :
    s.onPointerMoveEvent e =
      (s.setPointedVertex e.nodePath vertices (e.calcTotalTransform e.nodePath) i).map
        (fun s1 => (true, s1)) := by
  have h : (e.nodePath.reverse.any (fun node => decide (node ∈ s.targetNodes))) = true := by
    rw [List.any_eq_true]
    obtain ⟨node, hn, hnt⟩ := ht
    exact ⟨node, List.mem_reverse.2 hn, by simpa using hnt⟩
  simp only [Impl.onPointerMoveEvent, he, h, hb, hs, hm, hv, hf, Bool.not_true,
    Bool.false_eq_true, if_false, if_true]

theorem Impl.WellFormed.pointer_move {K : Type} [Arith K] {s s1 : Impl K}
    (hwf : s.WellFormed) (e : SceneWidgetEvent K) (r : Bool)
    (h : s.onPointerMoveEvent e = some (r, s1)) : s1.WellFormed := by
  cases he : e.isEditMode with
  | false =>
    rw [Impl.onPointerMoveEvent_not_edit s e he] at h
    simp only [Option.some.injEq, Prod.mk.injEq] at h
    rw [← h.2]; exact hwf
  | true =>
    by_cases ht : ∃ node ∈ e.nodePath, node ∈ s.targetNodes
    · cases hb : e.nodePath.getLast? with
      | none =>
        obtain ⟨node, hn, _⟩ := ht
        rw [List.getLast?_eq_none_iff] at hb
        rw [hb] at hn
        simp at hn
      | some back =>
        have hpath : e.nodePath ≠ [] := by
          intro h0; rw [h0] at hb; simp at hb
        cases hs : e.asShape back with
        | none =>
          rw [Impl.onPointerMoveEvent_not_shape s e he back hb hs] at h
          simp only [Option.some.injEq, Prod.mk.injEq] at h
          rw [← h.2]; exact hwf.clear_pointed
        | some shape =>
          cases hm : shape.mesh with
          | none =>
            simp [Impl.onPointerMoveEvent, he, hb, hs, hm] at h
            obtain ⟨node, hn, hnt⟩ := ht
            exact absurd hnt (h.1 node hn)
          | some mesh =>
            cases hv : mesh.vertices with
            | none =>
              simp [Impl.onPointerMoveEvent, he, hb, hs, hm, hv] at h
              obtain ⟨node, hn, hnt⟩ := ht
              exact absurd hnt (h.1 node hn)
            | some vertices =>
              cases hf : findPointedVertex vertices (e.calcTotalTransform e.nodePath) e.point with
              | none =>
                rw [Impl.onPointerMoveEvent_rejected s e he ht back shape mesh vertices hb hs hm
                  hv hf] at h
                simp only [Option.some.injEq, Prod.mk.injEq] at h
                rw [← h.2]; exact hwf.clear_pointed
              | some i =>
                rw [Impl.onPointerMoveEvent_accepted s e he ht back shape mesh vertices hb hs hm
                  hv i hf] at h
                simp only [Option.map_eq_some', Prod.mk.injEq] at h
                obtain ⟨s2, hs2, _, rfl⟩ := h
                exact hwf.set_pointed _ _ _ _ hpath hs2
    · have ht1 : ∀ node ∈ e.nodePath, node ∉ s.targetNodes := by
        intro node hn hnt
        exact ht ⟨node, hn, hnt⟩
      rw [Impl.onPointerMoveEvent_no_target s e he ht1] at h
      simp only [Option.some.injEq, Prod.mk.injEq] at h
      rw [← h.2]; exact hwf.clear_pointed

/-! ## A control-press over a valid hover -/

/-- In a consistent state `operator==` on held identities is `sameVertex`. -/
theorem Impl.WellFormed.held_operator_eq_iff {K : Type} {s : Impl K} (hwf : s.WellFormed)
    (a b : VertexInfo K) (ha : a ∈ s.pointedVertex :: s.selectedVertices)
    (hb : b ∈ s.pointedVertex :: s.selectedVertices) :
    a.operator_eq b = true ↔ a.sameVertex b :=
  VertexInfo.operator_eq_iff a b (fun p q hp hq => hwf.addr_inj a ha b hb p q hp hq)

/-- In a consistent state at most one position of the selection holds an
element equal to the hovered identity. -/
theorem Impl.WellFormed.eq_pointed_unique {K : Type} {s : Impl K} (hwf : s.WellFormed)
    (j k : Nat) (v w : VertexInfo K) (hj : s.selectedVertices[j]? = some v)
    (hk : s.selectedVertices[k]? = some w) (hv : v.operator_eq s.pointedVertex = true)
    (hw : w.operator_eq s.pointedVertex = true) : j = k := by
  have hvm : v ∈ s.pointedVertex :: s.selectedVertices :=
    List.mem_cons_of_mem _ (List.getElem?_mem hj)
  have hwm : w ∈ s.pointedVertex :: s.selectedVertices :=
    List.mem_cons_of_mem _ (List.getElem?_mem hk)
  have hpm : s.pointedVertex ∈ s.pointedVertex :: s.selectedVertices := List.mem_cons_self _ _
  have h1 := (hwf.held_operator_eq_iff v _ hvm hpm).1 hv
  have h2 := (hwf.held_operator_eq_iff w _ hwm hpm).1 hw
  have hvw : v.operator_eq w = true :=
    (hwf.held_operator_eq_iff v w hvm hwm).2 (VertexInfo.sameVertex_trans h1 (VertexInfo.sameVertex_symm h2))
  have hwv : w.operator_eq v = true :=
    (hwf.held_operator_eq_iff w v hwm hvm).2 (VertexInfo.sameVertex_trans h2 (VertexInfo.sameVertex_symm h1))
  have hp := List.pairwise_iff_getElem.1 hwf.nodup
  obtain ⟨hjl, hjv⟩ := List.getElem?_eq_some_iff.1 hj
  obtain ⟨hkl, hkw⟩ := List.getElem?_eq_some_iff.1 hk
  rcases lt_trichotomy j k with h | h | h
  · have := hp j k hjl hkl h
    rw [hjv, hkw, hvw] at this
    exact absurd this (by simp)
  · exact h
  · have := hp k j hkl hjl h
    rw [hjv, hkw, hwv] at this
    exact absurd this (by simp)

/-- The identity appended by a control-press differs from the hovered one at
most in the address of its path. -/
theorem Impl.adoptSharedPath_spec {K : Type} (pv : VertexInfo K) (q : SharedPath)
    (hq : pv.path = some q) (sp : Option SharedPath)
    (hsp : ∀ p : SharedPath, sp = some p → p.val = q.val) :
    (∃ p : SharedPath, (Impl.adoptSharedPath pv sp).path = some p ∧ p.val = q.val ∧
      (sp = some p ∨ (sp = none ∧ p = q))) ∧
    (Impl.adoptSharedPath pv sp).vertexIndex = pv.vertexIndex ∧
    (Impl.adoptSharedPath pv sp).position = pv.position ∧
    (Impl.adoptSharedPath pv sp).sameVertex pv := by
  cases sp with
  | none =>
    exact ⟨⟨q, hq, rfl, Or.inr ⟨rfl, rfl⟩⟩, rfl, rfl, rfl, rfl⟩
  | some p =>
    have hp := hsp p rfl
    refine ⟨⟨p, rfl, hp, Or.inl rfl⟩, rfl, rfl, ?_, rfl⟩
    simp [Impl.adoptSharedPath, hq, hp]

/-- The two outcomes of a control-press over a valid hover in a consistent
state: the first element equal to the hovered identity is erased, or no element
is equal and the hovered identity, with the path pointer of a selected element
of the same path if there is one, is appended. -/
theorem Impl.WellFormed.control_press {K : Type} {s : Impl K} (hwf : s.WellFormed)
    (e : SceneWidgetEvent K) (hb : e.button = LeftButton)
    (hv : s.pointedVertex.isValid = true) (hc : e.controlHeld = true) :
    (∃ (k : Nat) (v : VertexInfo K), s.selectedVertices[k]? = some v ∧
      v.operator_eq s.pointedVertex = true ∧
      s.onButtonPressEvent e = some (true, Impl.updateSelectedVertexArray
        { s with selectedVertices := s.selectedVertices.eraseIdx k })) ∨
    ((∀ v ∈ s.selectedVertices, v.operator_eq s.pointedVertex = false) ∧
      ∃ (sp : Option SharedPath) (q : SharedPath), s.pointedVertex.path = some q ∧
        (∀ p : SharedPath, sp = some p →
          ∃ u ∈ s.selectedVertices, u.path = some p ∧ p.val = q.val) ∧
        s.onButtonPressEvent e = some (true, Impl.updateSelectedVertexArray
          { s with
            pointedVertex := Impl.adoptSharedPath s.pointedVertex sp
            selectedVertices :=
              s.selectedVertices ++ [Impl.adoptSharedPath s.pointedVertex sp] })) := by
  obtain ⟨q, hq⟩ : ∃ q, s.pointedVertex.path = some q := by
    unfold VertexInfo.isValid at hv
    exact Option.isSome_iff_exists.1 hv
  rcases Impl.scanSelected_spec s.pointedVertex q hq s.selectedVertices hwf.selected_valid 0 none
    with ⟨k, v, sp1, hk, hveq, _, hres⟩ | ⟨hnone, sp1, hres, hsp1⟩
  · left
    rw [Nat.zero_add] at hres
    exact ⟨k, v, hk, hveq, Impl.onButtonPressEvent_valid_control_erase s e hb hv hc k sp1 hres⟩
  · right
    refine ⟨hnone, sp1, q, hq, ?_,
      Impl.onButtonPressEvent_valid_control_append s e hb hv hc sp1 hres⟩
    intro p hp
    rcases hsp1 p hp with h | h
    · exact absurd h (by simp)
    · exact h

/-! ## Every reachable state is consistent -/

theorem Impl.WellFormed.set_selection_nil {K : Type} {s : Impl K} (hwf : s.WellFormed) :
    (Impl.updateSelectedVertexArray { s with selectedVertices := [] }).WellFormed := by
  refine hwf.of_sources (le_refl _) ?_ ?_ ?_ hwf.pointed_invalid rfl
  · intro v hv p hp
    simp only [Impl.updateSelectedVertexArray, List.mem_singleton] at hv
    subst hv
    exact ⟨(hwf.valid_index _ (List.mem_cons_self _ _) p hp).2, _, List.mem_cons_self _ _, hp⟩
  · intro v hv; simp [Impl.updateSelectedVertexArray] at hv
  · simp [Impl.updateSelectedVertexArray]

theorem Impl.WellFormed.set_selection_pointed {K : Type} {s : Impl K} (hwf : s.WellFormed)
    (hv : s.pointedVertex.isValid = true) :
    (Impl.updateSelectedVertexArray { s with selectedVertices := [s.pointedVertex] }).WellFormed := by
  refine hwf.of_sources (le_refl _) ?_ ?_ ?_ hwf.pointed_invalid rfl
  · intro v hv1 p hp
    have hv2 : v = s.pointedVertex := by
      simpa [Impl.updateSelectedVertexArray] using hv1
    subst hv2
    exact ⟨(hwf.valid_index _ (List.mem_cons_self _ _) p hp).2, _, List.mem_cons_self _ _, hp⟩
  · intro v hv1
    have hv2 : v = s.pointedVertex := by
      simpa [Impl.updateSelectedVertexArray] using hv1
    rw [hv2]; exact hv
  · simp [Impl.updateSelectedVertexArray]

theorem Impl.WellFormed.erase_selected {K : Type} {s : Impl K} (hwf : s.WellFormed) (k : Nat) :
    (Impl.updateSelectedVertexArray
      { s with selectedVertices := s.selectedVertices.eraseIdx k }).WellFormed := by
  refine hwf.of_sources (le_refl _) ?_ ?_ ?_ hwf.pointed_invalid rfl
  · intro v hv p hp
    have hv1 : v ∈ s.pointedVertex :: s.selectedVertices := by
      rcases List.mem_cons.1 hv with h | h
      · rw [h]; exact List.mem_cons_self _ _
      · exact List.mem_cons_of_mem _ (List.mem_of_mem_eraseIdx h)
    exact ⟨(hwf.valid_index v hv1 p hp).2, v, hv1, hp⟩
  · intro v hv
    exact hwf.selected_valid v (List.mem_of_mem_eraseIdx hv)
  · exact hwf.nodup.sublist (List.eraseIdx_sublist _ _)

theorem Impl.WellFormed.append_pointed {K : Type} {s : Impl K} (hwf : s.WellFormed)
    (sp : Option SharedPath) (q : SharedPath) (hq : s.pointedVertex.path = some q)
    (hsp : ∀ p : SharedPath, sp = some p →
      ∃ u ∈ s.selectedVertices, u.path = some p ∧ p.val = q.val)
    (hnone : ∀ v ∈ s.selectedVertices, v.operator_eq s.pointedVertex = false) :
    (Impl.updateSelectedVertexArray
      { s with
        pointedVertex := Impl.adoptSharedPath s.pointedVertex sp
        selectedVertices :=
          s.selectedVertices ++ [Impl.adoptSharedPath s.pointedVertex sp] }).WellFormed := by
  obtain ⟨⟨p1, hp1, hp1v, hp1s⟩, hidx, _, hsame⟩ :=
    Impl.adoptSharedPath_spec s.pointedVertex q hq sp (fun p h => by
      obtain ⟨_, _, _, h2⟩ := hsp p h
      exact h2)
  have hpm : s.pointedVertex ∈ s.pointedVertex :: s.selectedVertices := List.mem_cons_self _ _
  -- the path pointer of the appended identity is held by the old state
  have hsrc1 : ∃ u ∈ s.pointedVertex :: s.selectedVertices, u.path = some p1 := by
    rcases hp1s with h | ⟨_, h⟩
    · obtain ⟨u, hu, hup, _⟩ := hsp p1 h
      exact ⟨u, List.mem_cons_of_mem _ hu, hup⟩
    · exact ⟨s.pointedVertex, hpm, by rw [hq, h]⟩
  have hidx0 : 0 ≤ (Impl.adoptSharedPath s.pointedVertex sp).vertexIndex := by
    rw [hidx]; exact (hwf.valid_index _ hpm q hq).2
  refine hwf.of_sources (le_refl _) ?_ ?_ ?_ ?_ rfl
  · intro v hv p hp
    simp only [Impl.updateSelectedVertexArray, List.mem_cons, List.mem_append,
      List.mem_singleton, List.not_mem_nil, or_false] at hv
    rcases hv with h | h | h
    · subst h
      rw [hp1] at hp
      rw [← Option.some.inj hp]
      exact ⟨hidx0, hsrc1⟩
    · exact ⟨(hwf.valid_index v (List.mem_cons_of_mem _ h) p hp).2, v,
        List.mem_cons_of_mem _ h, hp⟩
    · subst h
      rw [hp1] at hp
      rw [← Option.some.inj hp]
      exact ⟨hidx0, hsrc1⟩
  · intro v hv
    simp only [Impl.updateSelectedVertexArray, List.mem_append, List.mem_singleton] at hv
    rcases hv with h | h
    · exact hwf.selected_valid v h
    · rw [h]; simp [VertexInfo.isValid, hp1]
  · simp only [Impl.updateSelectedVertexArray]
    rw [List.pairwise_append]
    refine ⟨hwf.nodup, List.pairwise_singleton _ _, ?_⟩
    intro a ha b hb
    rw [List.mem_singleton] at hb
    subst hb
    have ham : a ∈ s.pointedVertex :: s.selectedVertices := List.mem_cons_of_mem _ ha
    by_contra hne
    have heq : a.operator_eq (Impl.adoptSharedPath s.pointedVertex sp) = true := by
      simpa using hne
    have hcons : ∀ p q1 : SharedPath, a.path = some p →
        (Impl.adoptSharedPath s.pointedVertex sp).path = some q1 → p.addr = q1.addr →
        p.val = q1.val := by
      intro p q1 hp hq1 hpq
      obtain ⟨u, hu, hup⟩ := hsrc1
      rw [hp1] at hq1
      rw [← Option.some.inj hq1] at hpq ⊢
      exact hwf.addr_inj a ham u hu p p1 hp hup hpq
    have h1 := (VertexInfo.operator_eq_iff a _ hcons).1 heq
    have h2 := (hwf.held_operator_eq_iff a s.pointedVertex ham hpm).2
      (VertexInfo.sameVertex_trans h1 hsame)
    rw [hnone a ha] at h2
    exact absurd h2 (by simp)
  · intro h
    simp only [Impl.updateSelectedVertexArray] at h
    rw [hp1] at h
    exact absurd h (by simp)

theorem Impl.WellFormed.button_press {K : Type} {s s1 : Impl K} (hwf : s.WellFormed)
    (e : SceneWidgetEvent K) (r : Bool) (h : s.onButtonPressEvent e = some (r, s1)) :
    s1.WellFormed := by
  by_cases hb : e.button = LeftButton
  · cases hv : s.pointedVertex.isValid with
    | false =>
      cases hc : e.controlHeld with
      | true =>
        rw [Impl.onButtonPressEvent_invalid_control s e hb hv hc] at h
        simp only [Option.some.injEq, Prod.mk.injEq] at h
        rw [← h.2]; exact hwf
      | false =>
        rw [Impl.onButtonPressEvent_invalid_plain s e hb hv hc] at h
        split at h
        · simp only [Option.some.injEq, Prod.mk.injEq] at h
          rw [← h.2]; exact hwf
        · simp only [Option.some.injEq, Prod.mk.injEq] at h
          rw [← h.2]; exact hwf.set_selection_nil
    | true =>
      cases hc : e.controlHeld with
      | false =>
        rw [Impl.onButtonPressEvent_valid_plain s e hb hv hc] at h
        simp only [Option.some.injEq, Prod.mk.injEq] at h
        rw [← h.2]; exact hwf.set_selection_pointed hv
      | true =>
        rcases hwf.control_press e hb hv hc with ⟨k, v, _, _, hres⟩ | ⟨hnone, sp, q, hq, hsp, hres⟩
        · rw [hres] at h
          simp only [Option.some.injEq, Prod.mk.injEq] at h
          rw [← h.2]; exact hwf.erase_selected k
        · rw [hres] at h
          simp only [Option.some.injEq, Prod.mk.injEq] at h
          rw [← h.2]; exact hwf.append_pointed sp q hq hsp hnone
  · rw [Impl.onButtonPressEvent_other_button s e hb] at h
    simp only [Option.some.injEq, Prod.mk.injEq] at h
    rw [← h.2]; exact hwf

theorem WellFormed_step {K : Type} [Arith K] {s s1 : Impl K} (hwf : s.WellFormed)
    (ev : Event K) (h : step s ev = some s1) : s1.WellFormed := by
  cases ev with
  | setCustomModeId id =>
    simp only [step, Option.some.injEq] at h
    rw [← h]; exact hwf.of_eq rfl rfl rfl rfl
  | sceneModeChanged event =>
    simp only [step, Option.some.injEq] at h
    rw [← h]
    unfold Impl.onSceneModeChanged
    split
    · exact hwf.of_eq rfl rfl rfl rfl
    · unfold Impl.clearScenePointSelectionMode
      dsimp only
      split <;> exact hwf.of_eq rfl rfl rfl rfl
  | sceneWidgetDestroyed sceneWidget =>
    simp only [step, Option.some.injEq] at h
    rw [← h]; exact hwf.of_eq rfl rfl rfl rfl
  | pointerMove event =>
    simp only [step, Option.map_eq_some', Prod.exists, exists_eq_right] at h
    obtain ⟨r, hr⟩ := h
    exact hwf.pointer_move event r hr
  | pointerLeave event =>
    simp only [step, Option.some.injEq] at h
    rw [← h]
    unfold Impl.onPointerLeaveEvent
    split <;> exact hwf.of_eq rfl rfl rfl rfl
  | buttonPress event =>
    simp only [step, Option.map_eq_some', Prod.exists, exists_eq_right] at h
    obtain ⟨r, hr⟩ := h
    exact hwf.button_press event r hr

/-- Every reachable state is consistent. -/
theorem Reachable.wellFormed {K : Type} [Arith K] {s : Impl K}
    (h : Reachable s) : s.WellFormed := by
  induction h with
  | init position0 => exact Impl.wellFormed_init position0
  | step ev _ hstep ih => exact WellFormed_step ih ev hstep

/-- The state after a run of calls from a reachable state is reachable. -/
theorem Reachable.of_run {K : Type} [Arith K] {s s1 : Impl K} (h : Reachable s)
    (evs : List (Event K)) (hrun : run s evs = some s1) : Reachable s1 := by
  induction evs generalizing s with
  | nil =>
    simp only [Choreonoid.run, Option.some.injEq] at hrun
    rw [← hrun]; exact h
  | cons ev evs ih =>
    simp only [Choreonoid.run, Option.bind_eq_some] at hrun
    obtain ⟨s2, hs2, hrest⟩ := hrun
    exact ih (Reachable.step ev h hs2) hrest

/-! ## The example scene -/

theorem findPointedVertex_example_origin :
    findPointedVertex exampleVertices Affine3.identity ⟨0, 0, 0⟩ = some 0 := by
  decide!

theorem findPointedVertex_example_one :
    findPointedVertex exampleVertices Affine3.identity ⟨1, 0, 0⟩ = some 1 := by
  decide!

theorem findPointedVertex_example_near :
    findPointedVertex exampleVertices Affine3.identity ⟨double (201 / 200), 0, 0⟩ = some 1 := by
  decide!

theorem findPointedVertex_example_far :
    findPointedVertex exampleVertices Affine3.identity ⟨5, 5, 5⟩ = none := by
  decide!

theorem exampleCalls_steps :
    step (Impl.init ⟨0, 0, 0⟩) (.sceneModeChanged (exampleEvent ⟨0, 0, 0⟩ 0)) = some activatedState ∧
    step activatedState (.pointerMove (exampleEvent ⟨0, 0, 0⟩ 0)) = some hoverFirstState ∧
    step hoverFirstState (.buttonPress (exampleEvent ⟨0, 0, 0⟩ 0)) = some selectedFirstState ∧
    step selectedFirstState (.pointerMove (exampleEvent ⟨1, 0, 0⟩ ControlModifier))
      = some hoverSecondState ∧
    step hoverSecondState (.buttonPress (exampleEvent ⟨1, 0, 0⟩ ControlModifier))
      = some selectedBothState ∧
    step selectedBothState (.pointerMove (exampleEvent ⟨0, 0, 0⟩ ControlModifier))
      = some exampleState := by
  refine ⟨?_, ?_, ?_, ?_, ?_, ?_⟩ <;> decide!

theorem exampleStates_reachable :
    Reachable selectedFirstState ∧ Reachable selectedBothState ∧ Reachable exampleState := by
  obtain ⟨h1, h2, h3, h4, h5, h6⟩ := exampleCalls_steps
  have r3 : Reachable selectedFirstState :=
    Reachable.step _ (Reachable.step _ (Reachable.step _ (Reachable.init _) h1) h2) h3
  have r5 : Reachable selectedBothState := Reachable.step _ (Reachable.step _ r3 h4) h5
  exact ⟨r3, r5, Reachable.step _ r5 h6⟩

theorem exampleCalls_run : run (Impl.init ⟨0, 0, 0⟩) exampleCalls = some exampleState := by
  obtain ⟨h1, h2, h3, h4, h5, h6⟩ := exampleCalls_steps
  simp [run, exampleCalls, h1, h2, h3, h4, h5, h6]

/-! ## The candidate of the scan (C1) -/

/-- Claim C1, as stated, fails, in two ways.  The buffer with the single vertex
`(2^64, 0, 0)` is not empty and the identity transform is its own inverse, yet
for the pick point `(0, 0, 0)` the candidate index is `-1`, which is not in the
range `0 <= i < |V|`: the `float` norm squares `2^64`, the square overflows to
infinity, and infinity is not below `FLT_MAX`.  In the buffer
`[(2^-80, 0, 0), (0, 0, 0)]` vertex 1 is the local point itself and vertex 0 is
another point, yet the candidate is index 0: the square of `2^-80` underflows
to zero in `float`, both computed distances are zero, and the first index is
kept. -/
theorem findMinDistanceIndex_overflow_underflow :
    hugeVertices ≠ [] ∧
    Arith.inverse (Affine3.identity : Affine3 Flt) = Affine3.identity ∧
    Arith.castFloat (Arith.inverse (Affine3.identity : Affine3 Flt) * (⟨0, 0, 0⟩ : Vec3 Flt))
      = ⟨0, 0, 0⟩ ∧
    Arith.distanceFloat (⟨.finite (2 ^ 64), 0, 0⟩ : Vec3 Flt) ⟨0, 0, 0⟩ = Flt.posInf ∧
    findMinDistanceIndex hugeVertices (⟨0, 0, 0⟩ : Vec3 Flt) = -1 ∧
    (¬ ∃ i : Nat, i < hugeVertices.length ∧
      findMinDistanceIndex hugeVertices (⟨0, 0, 0⟩ : Vec3 Flt) = (i : Int)) ∧
    tinyVertices[0]? = some ⟨.finite (1 / 2 ^ 80), 0, 0⟩ ∧
    tinyVertices[1]? = some ⟨0, 0, 0⟩ ∧
    (⟨.finite (1 / 2 ^ 80), 0, 0⟩ : Vec3 Flt) ≠ ⟨0, 0, 0⟩ ∧
    Arith.distanceFloat (⟨.finite (1 / 2 ^ 80), 0, 0⟩ : Vec3 Flt) ⟨0, 0, 0⟩ = 0 ∧
    Arith.distanceFloat (⟨0, 0, 0⟩ : Vec3 Flt) ⟨0, 0, 0⟩ = 0 ∧
    findMinDistanceIndex tinyVertices (⟨0, 0, 0⟩ : Vec3 Flt) = 0 := by
  have h : findMinDistanceIndex hugeVertices (⟨0, 0, 0⟩ : Vec3 Flt) = -1 := by decide!
  refine ⟨by decide, by decide!, by decide!, by decide!, h, ?_, by decide!, by decide!,
    by decide!, by decide!, by decide!, by decide!⟩
  rintro ⟨i, _, hi⟩
  rw [h] at hi
  omega

/-- Claim C1, amended: for every vertex buffer `V`, transform `T` and world
point `p`, with the local point `(T.inverse() * p).cast<float>()` as the source
computes it and the distance of a vertex to it taken as the `float` value of
`(V[j] - localPoint).norm()`: if some vertex has a distance below `FLT_MAX`, the
candidate index of the scan is in range, no vertex has a distance below that of
its vertex, and the distance of every vertex of lower index is neither below nor
equal to it; if no vertex has a distance below `FLT_MAX`, the candidate is
`-1`. -/
theorem findMinDistanceIndex_minimises {K : Type} [Arith K] (V : List (Vec3 K))
    (T : Affine3 K) (p : Vec3 K) :
    ((∃ v ∈ V, Arith.lt (Arith.distanceFloat v (Arith.castFloat (Arith.inverse T * p)))
        Arith.fltMax = true) →
      ∃ (i : Nat) (v : Vec3 K),
        findMinDistanceIndex V (Arith.castFloat (Arith.inverse T * p)) = (i : Int) ∧
        i < V.length ∧ V[i]? = some v ∧
        (∀ (j : Nat) (w : Vec3 K), V[j]? = some w →
          Arith.lt (Arith.distanceFloat w (Arith.castFloat (Arith.inverse T * p)))
            (Arith.distanceFloat v (Arith.castFloat (Arith.inverse T * p))) = false) ∧
        (∀ (j : Nat) (w : Vec3 K), j < i → V[j]? = some w →
          Arith.lt (Arith.distanceFloat w (Arith.castFloat (Arith.inverse T * p)))
            (Arith.distanceFloat v (Arith.castFloat (Arith.inverse T * p))) = false ∧
          Arith.distanceFloat w (Arith.castFloat (Arith.inverse T * p))
            ≠ Arith.distanceFloat v (Arith.castFloat (Arith.inverse T * p)))) ∧
    ((∀ v ∈ V, Arith.lt (Arith.distanceFloat v (Arith.castFloat (Arith.inverse T * p)))
        Arith.fltMax = false) →
      findMinDistanceIndex V (Arith.castFloat (Arith.inverse T * p)) = -1) := by
  refine ⟨?_, ?_⟩
  · intro hnear
    obtain ⟨i, v, hi, hv, _, hmin, hlow⟩ := findMinDistanceIndex_of_near V _ hnear
    exact ⟨i, v, hi, (List.getElem?_eq_some_iff.1 hv).1, hv, hmin, hlow⟩
  · intro hfar
    exact (findMinDistanceIndex_eq_neg_one_iff V _).2 hfar

/-- Claim C1, amended, at `exampleVertices`, the identity transform and the pick
point `(1.5, 0, 0)`: vertices 1 and 2 have the same distance `0.5`, and the
candidate is index 1, in range and first among the nearest. -/
theorem findMinDistanceIndex_minimises_witness :
    (∃ v ∈ exampleVertices,
      Arith.lt (Arith.distanceFloat v (Arith.castFloat
        (Arith.inverse (Affine3.identity : Affine3 Flt) * (⟨double (3 / 2), 0, 0⟩ : Vec3 Flt))))
        Arith.fltMax = true) ∧
    findMinDistanceIndex exampleVertices (Arith.castFloat
      (Arith.inverse (Affine3.identity : Affine3 Flt) * (⟨double (3 / 2), 0, 0⟩ : Vec3 Flt))) = 1 ∧
    ∃ (i : Nat) (v : Vec3 Flt),
      findMinDistanceIndex exampleVertices (Arith.castFloat
        (Arith.inverse (Affine3.identity : Affine3 Flt) * (⟨double (3 / 2), 0, 0⟩ : Vec3 Flt)))
        = (i : Int) ∧
      i < exampleVertices.length ∧ exampleVertices[i]? = some v ∧
      (∀ (j : Nat) (w : Vec3 Flt), exampleVertices[j]? = some w →
        Arith.lt (Arith.distanceFloat w (Arith.castFloat
            (Arith.inverse (Affine3.identity : Affine3 Flt) * (⟨double (3 / 2), 0, 0⟩ : Vec3 Flt))))
          (Arith.distanceFloat v (Arith.castFloat
            (Arith.inverse (Affine3.identity : Affine3 Flt) * (⟨double (3 / 2), 0, 0⟩ : Vec3 Flt))))
          = false) ∧
      (∀ (j : Nat) (w : Vec3 Flt), j < i → exampleVertices[j]? = some w →
        Arith.lt (Arith.distanceFloat w (Arith.castFloat
            (Arith.inverse (Affine3.identity : Affine3 Flt) * (⟨double (3 / 2), 0, 0⟩ : Vec3 Flt))))
          (Arith.distanceFloat v (Arith.castFloat
            (Arith.inverse (Affine3.identity : Affine3 Flt) * (⟨double (3 / 2), 0, 0⟩ : Vec3 Flt))))
          = false ∧
        Arith.distanceFloat w (Arith.castFloat
            (Arith.inverse (Affine3.identity : Affine3 Flt) * (⟨double (3 / 2), 0, 0⟩ : Vec3 Flt)))
          ≠ Arith.distanceFloat v (Arith.castFloat
            (Arith.inverse (Affine3.identity : Affine3 Flt) * (⟨double (3 / 2), 0, 0⟩ : Vec3 Flt)))) :=
  have hnear : ∃ v ∈ exampleVertices,
      Arith.lt (Arith.distanceFloat v (Arith.castFloat
        (Arith.inverse (Affine3.identity : Affine3 Flt) * (⟨double (3 / 2), 0, 0⟩ : Vec3 Flt))))
        Arith.fltMax = true :=
    ⟨⟨1, 0, 0⟩, by simp [exampleVertices], by decide!⟩
  ⟨hnear, by decide!,
    (findMinDistanceIndex_minimises exampleVertices Affine3.identity ⟨double (3 / 2), 0, 0⟩).1 hnear⟩

/-! ## Acceptance (C2) -/

/-- Claim C2, as stated, fails: with the single vertex `(2^64, 0, 0)`, the
scaling by `2^-80` and the pick point `(0, 0, 0)` the buffer is not empty and
its only vertex, the nearest one, has the world position `(2^-16, 0, 0)`, at the
world-space distance `2^-16` from the pick point, below `0.01`; yet
`findPointedVertex` returns `false`, as the `float` distance of the vertex to
the local point overflows and the scan has no candidate. -/
theorem findPointedVertex_overflow_rejected :
    hugeVertices ≠ [] ∧ hugeVertices[0]? = some ⟨.finite (2 ^ 64), 0, 0⟩ ∧
    hugeVertices.length = 1 ∧
    tinyScale * (⟨.finite (2 ^ 64), 0, 0⟩ : Vec3 Flt) = ⟨.finite (1 / 2 ^ 16), 0, 0⟩ ∧
    Arith.distanceDouble (tinyScale * (⟨.finite (2 ^ 64), 0, 0⟩ : Vec3 Flt)) ⟨0, 0, 0⟩
      = .finite (1 / 2 ^ 16) ∧
    Arith.lt (Flt.finite (1 / 2 ^ 16)) Arith.threshold = true ∧
    findMinDistanceIndex hugeVertices
      (Arith.castFloat (Arith.inverse tinyScale * (⟨0, 0, 0⟩ : Vec3 Flt))) = -1 ∧
    findPointedVertex hugeVertices tinyScale ⟨0, 0, 0⟩ = none := by
  refine ⟨by decide, by decide!, by decide, by decide!, by decide!, by decide!, by decide!,
    by decide!⟩

/-- Claim C2, amended: for every vertex buffer `V`, transform `T` and world
point `p`, with the local point and the distances as the source computes them,
`findPointedVertex` returns `true` with `out_index = i` iff the `float` distance
of `V[i]` to the local point is below `FLT_MAX`, no vertex has a distance below
it, the distance of every vertex of lower index is neither below nor equal to
it, and the `double` world-space distance from `T * V[i]` to `p` is below the
`double` `0.01`.  It returns `false` for the empty buffer, whenever the scan has
no candidate, and whenever the world-space distance of the candidate is not
below `0.01`.  With `V = [(0,0,0), (1,0,0), (2,0,0)]` and the identity,
`p = (1.005, 0, 0)` gives index 1, and `p = (1.5, 0, 0)` gives the candidate 1,
rejected. -/
theorem findPointedVertex_accepts_iff {K : Type} [Arith K] (V : List (Vec3 K))
    (T : Affine3 K) (p : Vec3 K) :
    (∀ i : Nat, findPointedVertex V T p = some i ↔
      ∃ v : Vec3 K, V[i]? = some v ∧
        Arith.lt (Arith.distanceFloat v (Arith.castFloat (Arith.inverse T * p))) Arith.fltMax
          = true ∧
        (∀ (j : Nat) (w : Vec3 K), V[j]? = some w →
          Arith.lt (Arith.distanceFloat w (Arith.castFloat (Arith.inverse T * p)))
            (Arith.distanceFloat v (Arith.castFloat (Arith.inverse T * p))) = false) ∧
        (∀ (j : Nat) (w : Vec3 K), j < i → V[j]? = some w →
          Arith.lt (Arith.distanceFloat w (Arith.castFloat (Arith.inverse T * p)))
            (Arith.distanceFloat v (Arith.castFloat (Arith.inverse T * p))) = false ∧
          Arith.distanceFloat w (Arith.castFloat (Arith.inverse T * p))
            ≠ Arith.distanceFloat v (Arith.castFloat (Arith.inverse T * p))) ∧
        Arith.lt (Arith.distanceDouble (T * v) p) Arith.threshold = true) ∧
    findPointedVertex [] T p = none ∧
    (findMinDistanceIndex V (Arith.castFloat (Arith.inverse T * p)) = -1 →
      findPointedVertex V T p = none) ∧
    (∀ (i : Nat) (v : Vec3 K),
      findMinDistanceIndex V (Arith.castFloat (Arith.inverse T * p)) = (i : Int) →
      V[i]? = some v →
      Arith.lt (Arith.distanceDouble (T * v) p) Arith.threshold = false →
      findPointedVertex V T p = none) ∧
    findPointedVertex exampleVertices Affine3.identity ⟨double (201 / 200), 0, 0⟩ = some 1 ∧
    findMinDistanceIndex exampleVertices (Arith.castFloat
      (Arith.inverse (Affine3.identity : Affine3 Flt) * (⟨double (3 / 2), 0, 0⟩ : Vec3 Flt))) = 1 ∧
    findPointedVertex exampleVertices Affine3.identity ⟨double (3 / 2), 0, 0⟩ = none := by
  refine ⟨findPointedVertex_eq_some_iff V T p, ?_, ?_, ?_, by decide!, by decide!, by decide!⟩
  · simp [findPointedVertex, findMinDistanceIndex, scanVertices]
  · intro h
    simp [findPointedVertex, h]
  · intro i v hi hv hfar
    simp [findPointedVertex, hi, hv, hfar]

/-- Claim C2, amended, at `exampleVertices`, the identity transform and the pick
point `(1.5, 0, 0)`: the candidate is index 1, its world-space distance `0.5` is
not below `0.01`, and the pick is rejected. -/
theorem findPointedVertex_accepts_iff_witness :
    findMinDistanceIndex exampleVertices (Arith.castFloat
      (Arith.inverse (Affine3.identity : Affine3 Flt) * (⟨double (3 / 2), 0, 0⟩ : Vec3 Flt)))
      = ((1 : Nat) : Int) ∧
    exampleVertices[1]? = some ⟨1, 0, 0⟩ ∧
    Arith.lt (Arith.distanceDouble ((Affine3.identity : Affine3 Flt) * (⟨1, 0, 0⟩ : Vec3 Flt))
      ⟨double (3 / 2), 0, 0⟩) Arith.threshold = false ∧
    findPointedVertex exampleVertices Affine3.identity ⟨double (3 / 2), 0, 0⟩ = none :=
  ⟨by decide!, by decide!, by decide!,
    (findPointedVertex_accepts_iff exampleVertices Affine3.identity
      ⟨double (3 / 2), 0, 0⟩).2.2.2.1 1 ⟨1, 0, 0⟩ (by decide!) (by decide!) (by decide!)⟩

/-! ## The selection holds no duplicates (C3) -/

/-- Claim C3: in every reachable state no two elements at distinct positions of
`selectedVertices` are equal under `operator==`, nor do two of them have
structurally equal paths and the same vertex index. -/
theorem selectedVertices_no_duplicates {K : Type} [Arith K] (s : Impl K)
    (h : Reachable s) (i j : Nat) (a b : VertexInfo K) (hij : i ≠ j)
    (ha : s.selectedVertices[i]? = some a) (hb : s.selectedVertices[j]? = some b) :
    a.operator_eq b = false ∧ ¬ a.sameVertex b := by
  have hwf := h.wellFormed
  have ham : a ∈ s.pointedVertex :: s.selectedVertices :=
    List.mem_cons_of_mem _ (List.getElem?_mem ha)
  have hbm : b ∈ s.pointedVertex :: s.selectedVertices :=
    List.mem_cons_of_mem _ (List.getElem?_mem hb)
  have hp := List.pairwise_iff_getElem.1 hwf.nodup
  obtain ⟨hil, hia⟩ := List.getElem?_eq_some_iff.1 ha
  obtain ⟨hjl, hjb⟩ := List.getElem?_eq_some_iff.1 hb
  have hns : ¬ a.sameVertex b := by
    intro hs
    rcases lt_or_gt_of_ne hij with hlt | hgt
    · have h1 := hp i j hil hjl hlt
      rw [hia, hjb, (hwf.held_operator_eq_iff a b ham hbm).2 hs] at h1
      exact absurd h1 (by simp)
    · have h1 := hp j i hjl hil hgt
      rw [hia, hjb, (hwf.held_operator_eq_iff b a hbm ham).2 (VertexInfo.sameVertex_symm hs)] at h1
      exact absurd h1 (by simp)
  refine ⟨?_, hns⟩
  cases heq : a.operator_eq b with
  | false => rfl
  | true => exact absurd ((hwf.held_operator_eq_iff a b ham hbm).1 heq) hns

/-- Claim C3 at `exampleState`, whose selection holds vertices 0 and 1 of the
same path. -/
theorem selectedVertices_no_duplicates_witness :
    Reachable exampleState ∧ (0 : Nat) ≠ 1 ∧
    exampleState.selectedVertices[0]? = some ⟨some ⟨0, [1, 2]⟩, 0, ⟨0, 0, 0⟩⟩ ∧
    exampleState.selectedVertices[1]? = some ⟨some ⟨0, [1, 2]⟩, 1, ⟨1, 0, 0⟩⟩ ∧
    ((⟨some ⟨0, [1, 2]⟩, 0, ⟨0, 0, 0⟩⟩ : VertexInfo Flt).operator_eq
        ⟨some ⟨0, [1, 2]⟩, 1, ⟨1, 0, 0⟩⟩ = false ∧
      ¬ (⟨some ⟨0, [1, 2]⟩, 0, ⟨0, 0, 0⟩⟩ : VertexInfo Flt).sameVertex
        ⟨some ⟨0, [1, 2]⟩, 1, ⟨1, 0, 0⟩⟩) :=
  ⟨exampleStates_reachable.2.2, by decide, rfl, rfl,
    selectedVertices_no_duplicates exampleState exampleStates_reachable.2.2 0 1 _ _ (by decide)
      rfl rfl⟩

/-! ## Control-press toggles the hovered vertex (C4, C5) -/

/-- Claim C4, as stated, fails: in `exampleState` the selection is
`[vertex 0, vertex 1]` and vertex 0 is hovered; two control-presses in a row
leave `[vertex 1, vertex 0]`, the same elements in another order. -/
theorem control_press_twice_reorders :
    Reachable exampleState ∧ exampleState.pointedVertex.isValid = true ∧
    exampleState.selectedVertices
      = [⟨some ⟨0, [1, 2]⟩, 0, ⟨0, 0, 0⟩⟩, ⟨some ⟨0, [1, 2]⟩, 1, ⟨1, 0, 0⟩⟩] ∧
    ((exampleState.onButtonPressEvent (exampleEvent ⟨0, 0, 0⟩ ControlModifier)).bind
      (fun r => r.2.onButtonPressEvent (exampleEvent ⟨0, 0, 0⟩ ControlModifier))).map
        (fun r => r.2.selectedVertices)
      = some [⟨some ⟨0, [1, 2]⟩, 1, ⟨1, 0, 0⟩⟩, ⟨some ⟨0, [1, 2]⟩, 0, ⟨0, 0, 0⟩⟩] ∧
    ([⟨some ⟨0, [1, 2]⟩, 1, ⟨1, 0, 0⟩⟩, ⟨some ⟨0, [1, 2]⟩, 0, ⟨0, 0, 0⟩⟩] : List (VertexInfo Flt))
      ≠ exampleState.selectedVertices := by
  refine ⟨exampleStates_reachable.2.2, rfl, rfl, ?_, by decide⟩
  simp [Impl.onButtonPressEvent, exampleEvent, exampleState, selectedBothState,
    VertexInfo.isValid, SceneWidgetEvent.controlHeld, ControlModifier,
    Impl.updateSelectedVertexArray, Impl.adoptSharedPath, Impl.scanSelected,
    VertexInfo.operator_eq, ptrEq, pathContentEq, LeftButton]

/-- Claim C4, amended: in every reachable state with a valid hovered vertex,
two consecutive primary-button presses with the modifier held both succeed, and
the hover names the same vertex in between.  If no selected element equals the
hovered vertex before the first press, the selection sequence afterwards is
exactly the original one.  If the element at position `k` equals the hovered
vertex, the selection afterwards is the original with that element erased and
an identity of the hovered vertex, with its position, appended as last
element. -/
theorem control_press_twice {K : Type} [Arith K] (s : Impl K) (h : Reachable s)
    (e1 e2 : SceneWidgetEvent K) (hb1 : e1.button = LeftButton) (hb2 : e2.button = LeftButton)
    (hc1 : e1.controlHeld = true) (hc2 : e2.controlHeld = true)
    (hv : s.pointedVertex.isValid = true) :
    ∃ s1 s2 : Impl K, s.onButtonPressEvent e1 = some (true, s1) ∧
      s1.pointedVertex.sameVertex s.pointedVertex ∧
      s1.onButtonPressEvent e2 = some (true, s2) ∧
      ((∀ v ∈ s.selectedVertices, v.operator_eq s.pointedVertex = false) →
        s2.selectedVertices = s.selectedVertices) ∧
      (∀ (k : Nat) (v : VertexInfo K), s.selectedVertices[k]? = some v →
        v.operator_eq s.pointedVertex = true →
        ∃ h1 : VertexInfo K, h1.sameVertex s.pointedVertex ∧
          h1.position = s.pointedVertex.position ∧
          s2.selectedVertices = s.selectedVertices.eraseIdx k ++ [h1]) := by
  have hwf := h.wellFormed
  rcases hwf.control_press e1 hb1 hv hc1 with
    ⟨k0, v0, hk0, hv0, hres1⟩ | ⟨hnone, sp, q, hq, hsp, hres1⟩
  · -- the first press erases position `k0`
    have hwf1 := hwf.erase_selected k0
    rcases hwf1.control_press e2 hb2 hv hc2 with
      ⟨k1, v1, hk1, hv1, _⟩ | ⟨_, sp1, q1, hq1, hsp1, hres2⟩
    · exfalso
      have hk1a : (s.selectedVertices.eraseIdx k0)[k1]? = some v1 := hk1
      have hv1a : v1.operator_eq s.pointedVertex = true := hv1
      rw [List.getElem?_eraseIdx] at hk1a
      split at hk1a
      · have := hwf.eq_pointed_unique k1 k0 v1 v0 hk1a hk0 hv1a hv0
        omega
      · have := hwf.eq_pointed_unique (k1 + 1) k0 v1 v0 hk1a hk0 hv1a hv0
        omega
    · refine ⟨_, _, hres1, ⟨rfl, rfl⟩, hres2, ?_, ?_⟩
      · intro hnone
        have := hnone v0 (List.getElem?_mem hk0)
        rw [hv0] at this
        exact absurd this (by simp)
      · intro k v hk hveq
        have hkk : k = k0 := hwf.eq_pointed_unique k k0 v v0 hk hk0 hveq hv0
        subst hkk
        obtain ⟨_, _, hpos, hsame⟩ := Impl.adoptSharedPath_spec s.pointedVertex q1 hq1 sp1
          (fun p hp => by
            obtain ⟨_, _, _, h2⟩ := hsp1 p hp
            exact h2)
        exact ⟨Impl.adoptSharedPath s.pointedVertex sp1, hsame, hpos, rfl⟩
  · -- the first press appends the hovered identity
    have hwf1 := hwf.append_pointed sp q hq hsp hnone
    obtain ⟨⟨p1, hp1, _, _⟩, _, _, hsame⟩ := Impl.adoptSharedPath_spec s.pointedVertex q hq sp
      (fun p hp => by
        obtain ⟨_, _, _, h2⟩ := hsp p hp
        exact h2)
    have hv1 : (Impl.adoptSharedPath s.pointedVertex sp).isValid = true := by
      simp [VertexInfo.isValid, hp1]
    have hlast : (s.selectedVertices ++ [Impl.adoptSharedPath s.pointedVertex sp])[
        s.selectedVertices.length]? = some (Impl.adoptSharedPath s.pointedVertex sp) := by
      simp
    rcases hwf1.control_press e2 hb2 hv1 hc2 with
      ⟨k1, v1, hk1, hveq1, hres2⟩ | ⟨hnone1, _, _, _, _, _⟩
    · have hk : k1 = s.selectedVertices.length :=
        hwf1.eq_pointed_unique k1 s.selectedVertices.length v1 _ hk1 hlast hveq1
          (VertexInfo.operator_eq_self _)
      refine ⟨_, _, hres1, hsame, hres2, ?_, ?_⟩
      · intro _
        show (s.selectedVertices ++ [Impl.adoptSharedPath s.pointedVertex sp]).eraseIdx k1
          = s.selectedVertices
        rw [hk, List.eraseIdx_append_of_length_le (le_refl _)]
        simp
      · intro k v hk2 hveq
        have := hnone v (List.getElem?_mem hk2)
        rw [hveq] at this
        exact absurd this (by simp)
    · exfalso
      have := hnone1 (Impl.adoptSharedPath s.pointedVertex sp) (List.getElem?_mem hlast)
      rw [show (Impl.updateSelectedVertexArray
        { s with
          pointedVertex := Impl.adoptSharedPath s.pointedVertex sp
          selectedVertices :=
            s.selectedVertices ++ [Impl.adoptSharedPath s.pointedVertex sp] }).pointedVertex
          = Impl.adoptSharedPath s.pointedVertex sp from rfl,
        VertexInfo.operator_eq_self] at this
      exact absurd this (by simp)

theorem hoverSecondState_reachable : Reachable hoverSecondState :=
  Reachable.step _ exampleStates_reachable.1 exampleCalls_steps.2.2.2.1

/-- Claim C4, amended, at `hoverSecondState`: vertex 0 is selected, vertex 1 is
hovered and not selected, and two control-presses give back the selection. -/
theorem control_press_twice_witness :
    Reachable hoverSecondState ∧
    (exampleEvent ⟨1, 0, 0⟩ ControlModifier).button = LeftButton ∧
    (exampleEvent ⟨1, 0, 0⟩ ControlModifier).controlHeld = true ∧
    hoverSecondState.pointedVertex.isValid = true ∧
    ∃ s1 s2 : Impl Flt,
      hoverSecondState.onButtonPressEvent (exampleEvent ⟨1, 0, 0⟩ ControlModifier)
        = some (true, s1) ∧
      s1.onButtonPressEvent (exampleEvent ⟨1, 0, 0⟩ ControlModifier) = some (true, s2) ∧
      s2.selectedVertices = hoverSecondState.selectedVertices := by
  refine ⟨hoverSecondState_reachable, rfl, rfl, rfl, ?_⟩
  obtain ⟨s1, s2, h1, _, h2, hsame, _⟩ :=
    control_press_twice hoverSecondState hoverSecondState_reachable
      (exampleEvent ⟨1, 0, 0⟩ ControlModifier) (exampleEvent ⟨1, 0, 0⟩ ControlModifier)
      rfl rfl rfl rfl rfl
  refine ⟨s1, s2, h1, h2, hsame ?_⟩
  simp [hoverSecondState, selectedFirstState, VertexInfo.operator_eq, ptrEq, pathContentEq]

/-- Claim C5: in every reachable state a primary-button press with a valid
hovered identity and the modifier held succeeds; if the element at position `k`
of the selection equals the hovered identity, the new selection is the old one
with that element erased, the others keeping their order; if no element equals
it, the new selection is the old one followed by one more element: the hovered
identity as it stands after the press, which names the same vertex as before
(same path contents, same index) and has the same position. -/
theorem control_press_toggles {K : Type} [Arith K] (s : Impl K) (h : Reachable s)
    (e : SceneWidgetEvent K) (hb : e.button = LeftButton) (hc : e.controlHeld = true)
    (hv : s.pointedVertex.isValid = true) :
    ∃ s1 : Impl K, s.onButtonPressEvent e = some (true, s1) ∧
      (∀ (k : Nat) (v : VertexInfo K), s.selectedVertices[k]? = some v →
        v.operator_eq s.pointedVertex = true →
        s1.selectedVertices = s.selectedVertices.eraseIdx k) ∧
      ((∀ v ∈ s.selectedVertices, v.operator_eq s.pointedVertex = false) →
        ∃ h1 : VertexInfo K, s1.selectedVertices = s.selectedVertices ++ [h1] ∧
          h1 = s1.pointedVertex ∧
          h1.sameVertex s.pointedVertex ∧ h1.vertexIndex = s.pointedVertex.vertexIndex ∧
          h1.position = s.pointedVertex.position) := by
  have hwf := h.wellFormed
  rcases hwf.control_press e hb hv hc with
    ⟨k0, v0, hk0, hv0, hres⟩ | ⟨hnone, sp, q, hq, hsp, hres⟩
  · refine ⟨_, hres, ?_, ?_⟩
    · intro k v hk hveq
      have hkk : k = k0 := hwf.eq_pointed_unique k k0 v v0 hk hk0 hveq hv0
      rw [hkk]
      rfl
    · intro hnone
      have := hnone v0 (List.getElem?_mem hk0)
      rw [hv0] at this
      exact absurd this (by simp)
  · refine ⟨_, hres, ?_, ?_⟩
    · intro k v hk hveq
      have := hnone v (List.getElem?_mem hk)
      rw [hveq] at this
      exact absurd this (by simp)
    · intro _
      obtain ⟨_, hidx, hpos, hsame⟩ := Impl.adoptSharedPath_spec s.pointedVertex q hq sp
        (fun p hp => by
          obtain ⟨_, _, _, h2⟩ := hsp p hp
          exact h2)
      exact ⟨Impl.adoptSharedPath s.pointedVertex sp, rfl, rfl, hsame, hidx, hpos⟩

/-- Claim C5 on the scenario of the claim: press on vertex 0, control-press on
vertex 1, control-press on vertex 0.  The selections after the three presses
are `[vertex 0]`, `[vertex 0, vertex 1]` and `[vertex 1]`. -/
theorem control_press_toggles_witness :
    run (Impl.init ⟨0, 0, 0⟩) (exampleCalls.take 3) = some selectedFirstState ∧
    selectedFirstState.selectedVertices = [⟨some ⟨0, [1, 2]⟩, 0, ⟨0, 0, 0⟩⟩] ∧
    run (Impl.init ⟨0, 0, 0⟩) (exampleCalls.take 5) = some selectedBothState ∧
    selectedBothState.selectedVertices
      = [⟨some ⟨0, [1, 2]⟩, 0, ⟨0, 0, 0⟩⟩, ⟨some ⟨0, [1, 2]⟩, 1, ⟨1, 0, 0⟩⟩] ∧
    run (Impl.init ⟨0, 0, 0⟩) exampleCalls = some exampleState ∧
    Reachable exampleState ∧
    (exampleEvent ⟨0, 0, 0⟩ ControlModifier).button = LeftButton ∧
    (exampleEvent ⟨0, 0, 0⟩ ControlModifier).controlHeld = true ∧
    exampleState.pointedVertex.isValid = true ∧
    ∃ s1 : Impl Flt,
      exampleState.onButtonPressEvent (exampleEvent ⟨0, 0, 0⟩ ControlModifier)
        = some (true, s1) ∧
      s1.selectedVertices = [⟨some ⟨0, [1, 2]⟩, 1, ⟨1, 0, 0⟩⟩] := by
  obtain ⟨c1, c2, c3, c4, c5, _⟩ := exampleCalls_steps
  refine ⟨by simp [run, exampleCalls, c1, c2, c3], rfl,
    by simp [run, exampleCalls, c1, c2, c3, c4, c5], rfl, exampleCalls_run,
    exampleStates_reachable.2.2, rfl, rfl, rfl, ?_⟩
  obtain ⟨s1, h1, herase, _⟩ :=
    control_press_toggles exampleState exampleStates_reachable.2.2
      (exampleEvent ⟨0, 0, 0⟩ ControlModifier) rfl rfl rfl
  refine ⟨s1, h1, ?_⟩
  have h0 : exampleState.selectedVertices[0]? = some ⟨some ⟨0, [1, 2]⟩, 0, ⟨0, 0, 0⟩⟩ := rfl
  rw [herase 0 _ h0 (by
    simp [exampleState, VertexInfo.operator_eq, ptrEq, pathContentEq])]
  rfl

/-! ## Press without the modifier, press without a hover (C6, C7) -/

/-- Claim C6: a primary-button press with a valid hovered identity and the
modifier not held leaves the one-element selection holding the hovered identity,
whatever was selected before; the selected-marker array is rebuilt to hold its
position and one redraw of that array is signalled. -/
theorem plain_press_selects_hover {K : Type} (s : Impl K) (e : SceneWidgetEvent K)
    (hb : e.button = LeftButton) (hc : e.controlHeld = false)
    (hv : s.pointedVertex.isValid = true) :
    ∃ s1 : Impl K, s.onButtonPressEvent e = some (true, s1) ∧
      s1.selectedVertices = [s.pointedVertex] ∧
      s1.selectedVertexArray = [s.pointedVertex.position] ∧
      s1.selectedVertexArrayUpdates = s.selectedVertexArrayUpdates + 1 :=
  ⟨_, Impl.onButtonPressEvent_valid_plain s e hb hv hc, rfl, rfl, rfl⟩

/-- Claim C6 at `exampleState`, where the hovered vertex 0 is already one of two
selected vertices. -/
theorem plain_press_selects_hover_witness :
    (exampleEvent ⟨0, 0, 0⟩ 0).button = LeftButton ∧
    (exampleEvent ⟨0, 0, 0⟩ 0).controlHeld = false ∧
    exampleState.pointedVertex.isValid = true ∧
    ∃ s1 : Impl Flt, exampleState.onButtonPressEvent (exampleEvent ⟨0, 0, 0⟩ 0) = some (true, s1) ∧
      s1.selectedVertices = [exampleState.pointedVertex] ∧
      s1.selectedVertexArray = [exampleState.pointedVertex.position] ∧
      s1.selectedVertexArrayUpdates = exampleState.selectedVertexArrayUpdates + 1 :=
  ⟨rfl, rfl, rfl, plain_press_selects_hover exampleState (exampleEvent ⟨0, 0, 0⟩ 0) rfl rfl rfl⟩

/-- Claim C7: on a primary-button press while the hover is invalid, with the
modifier held the state is unchanged (selection, marker array, redraw count);
with the modifier not held the selection ends empty, and if it was not empty
before, the marker array is emptied and one redraw is signalled, while if it was
empty the state is unchanged, so no redraw is signalled. -/
theorem press_without_hover {K : Type} (s : Impl K) (e : SceneWidgetEvent K)
    (hb : e.button = LeftButton) (hv : s.pointedVertex.isValid = false) :
    (e.controlHeld = true → s.onButtonPressEvent e = some (true, s)) ∧
    (e.controlHeld = false →
      ∃ s1 : Impl K, s.onButtonPressEvent e = some (true, s1) ∧ s1.selectedVertices = [] ∧
        (s.selectedVertices ≠ [] → s1.selectedVertexArray = [] ∧
          s1.selectedVertexArrayUpdates = s.selectedVertexArrayUpdates + 1) ∧
        (s.selectedVertices = [] → s1 = s)) := by
  refine ⟨fun hc => Impl.onButtonPressEvent_invalid_control s e hb hv hc, ?_⟩
  intro hc
  rw [Impl.onButtonPressEvent_invalid_plain s e hb hv hc]
  cases hsel : s.selectedVertices with
  | nil =>
    refine ⟨s, by simp, hsel, fun h => absurd rfl h, fun _ => rfl⟩
  | cons a l =>
    refine ⟨_, by simp; rfl, rfl, fun _ => ⟨rfl, rfl⟩, fun h => by simp at h⟩

/-- Claim C7 at `exampleState` with its hover cleared: two vertices are
selected, and a press without the modifier empties the selection and signals a
redraw, while a press with the modifier changes nothing. -/
theorem press_without_hover_witness :
    (exampleEvent ⟨5, 5, 5⟩ 0).button = LeftButton ∧
    exampleState.clearPointedVertex.pointedVertex.isValid = false ∧
    (exampleEvent ⟨5, 5, 5⟩ 0).controlHeld = false ∧
    exampleState.clearPointedVertex.selectedVertices ≠ [] ∧
    ∃ s1 : Impl Flt,
      exampleState.clearPointedVertex.onButtonPressEvent (exampleEvent ⟨5, 5, 5⟩ 0)
        = some (true, s1) ∧
      s1.selectedVertices = [] ∧ s1.selectedVertexArray = [] ∧
      s1.selectedVertexArrayUpdates
        = exampleState.clearPointedVertex.selectedVertexArrayUpdates + 1 := by
  have hne : exampleState.clearPointedVertex.selectedVertices ≠ [] := by
    simp [Impl.clearPointedVertex, exampleState, selectedBothState]
  obtain ⟨s1, h1, h2, h3, _⟩ :=
    (press_without_hover exampleState.clearPointedVertex (exampleEvent ⟨5, 5, 5⟩ 0) rfl rfl).2 rfl
  exact ⟨rfl, rfl, rfl, hne, s1, h1, h2, (h3 hne).1, (h3 hne).2⟩

/-! ## Pointer moves (C8, C9, C10) -/

theorem Impl.clearPointedVertex_hover {K : Type} (s : Impl K) :
    s.clearPointedVertex.pointedVertex.isValid = false ∧
    s.clearPointedVertex.pointedVertexArray = [] := by
  unfold Impl.clearPointedVertex
  dsimp only
  cases h : s.pointedVertexArray with
  | nil => simp [VertexInfo.isValid, h]
  | cons a l => simp [VertexInfo.isValid]

/-- Claim C8, as stated, fails: in `exampleState` vertex 0 is hovered; a pointer
move while the widget is not in edit mode returns `false` and leaves the state
as it was, with the hover valid and its marker in the buffer. -/
theorem pointerMove_outside_edit_keeps_hover :
    Reachable exampleState ∧
    exampleState.onPointerMoveEvent { exampleEvent ⟨5, 5, 5⟩ 0 with isEditMode := false }
      = some (false, exampleState) ∧
    exampleState.pointedVertex.isValid = true ∧
    exampleState.pointedVertexArray = [⟨0, 0, 0⟩] :=
  ⟨exampleStates_reachable.2.2, Impl.onPointerMoveEvent_not_edit _ _ rfl, rfl, rfl⟩

/-- Claim C8, amended: after a pointer-move event received in edit mode for
which no node of the path is a target node, or whose vertex search is rejected,
the hover is cleared: the hovered identity is invalid and the hover marker
buffer is empty.  The same event received outside edit mode returns `false` and
changes nothing. -/
theorem pointerMove_clears_hover {K : Type} [Arith K] (s : Impl K)
    (e : SceneWidgetEvent K)
    (h : (∀ node ∈ e.nodePath, node ∉ s.targetNodes) ∨
      ∃ (back : SgNodePtr) (shape : SgShape K) (mesh : SgMesh K) (vertices : List (Vec3 K)),
        e.nodePath.getLast? = some back ∧ e.asShape back = some shape ∧
        shape.mesh = some mesh ∧ mesh.vertices = some vertices ∧
        findPointedVertex vertices (e.calcTotalTransform e.nodePath) e.point = none) :
    (e.isEditMode = true →
      ∃ s1 : Impl K, s.onPointerMoveEvent e = some (true, s1) ∧
        s1.pointedVertex.isValid = false ∧ s1.pointedVertexArray = []) ∧
    (e.isEditMode = false → s.onPointerMoveEvent e = some (false, s)) := by
  refine ⟨?_, fun he => Impl.onPointerMoveEvent_not_edit s e he⟩
  intro he
  refine ⟨s.clearPointedVertex, ?_, s.clearPointedVertex_hover⟩
  by_cases ht : ∃ node ∈ e.nodePath, node ∈ s.targetNodes
  · rcases h with h | ⟨back, shape, mesh, vertices, hb, hs, hm, hvv, hf⟩
    · obtain ⟨node, hn, hnt⟩ := ht
      exact absurd hnt (h node hn)
    · exact Impl.onPointerMoveEvent_rejected s e he ht back shape mesh vertices hb hs hm hvv hf
  · exact Impl.onPointerMoveEvent_no_target s e he (fun node hn hnt => ht ⟨node, hn, hnt⟩)

/-- Claim C8, amended, at `exampleState`: the pointer moves to `(5, 5, 5)`, far
from every vertex, and the search is rejected. -/
theorem pointerMove_clears_hover_witness :
    (∃ (back : SgNodePtr) (shape : SgShape Flt) (mesh : SgMesh Flt) (vertices : List (Vec3 Flt)),
        (exampleEvent ⟨5, 5, 5⟩ 0).nodePath.getLast? = some back ∧
        (exampleEvent ⟨5, 5, 5⟩ 0).asShape back = some shape ∧
        shape.mesh = some mesh ∧ mesh.vertices = some vertices ∧
        findPointedVertex vertices
          ((exampleEvent ⟨5, 5, 5⟩ 0).calcTotalTransform (exampleEvent ⟨5, 5, 5⟩ 0).nodePath)
          (exampleEvent ⟨5, 5, 5⟩ 0).point = none) ∧
    (exampleEvent ⟨5, 5, 5⟩ 0).isEditMode = true ∧
    exampleState.pointedVertex.isValid = true ∧
    ∃ s1 : Impl Flt, exampleState.onPointerMoveEvent (exampleEvent ⟨5, 5, 5⟩ 0) = some (true, s1) ∧
      s1.pointedVertex.isValid = false ∧ s1.pointedVertexArray = [] :=
  have h : ∃ (back : SgNodePtr) (shape : SgShape Flt) (mesh : SgMesh Flt)
      (vertices : List (Vec3 Flt)),
      (exampleEvent ⟨5, 5, 5⟩ 0).nodePath.getLast? = some back ∧
      (exampleEvent ⟨5, 5, 5⟩ 0).asShape back = some shape ∧
      shape.mesh = some mesh ∧ mesh.vertices = some vertices ∧
      findPointedVertex vertices
        ((exampleEvent ⟨5, 5, 5⟩ 0).calcTotalTransform (exampleEvent ⟨5, 5, 5⟩ 0).nodePath)
        (exampleEvent ⟨5, 5, 5⟩ 0).point = none :=
    ⟨2, ⟨some ⟨some exampleVertices⟩⟩, ⟨some exampleVertices⟩, exampleVertices, rfl, rfl, rfl, rfl,
      findPointedVertex_example_far⟩
  ⟨h, rfl, rfl,
    (pointerMove_clears_hover exampleState (exampleEvent ⟨5, 5, 5⟩ 0) (Or.inr h)).1 rfl⟩

/-- Claim C9, as stated, fails: `shiftedEvent` is a pointer move in edit mode
over a target node whose shape has the one vertex `(1, 0, 0)`, under the
translation by `(2^-30, 0, 0)`.  The search is accepted with index 0 and
`T * V[0]` is `(1 + 2^-30, 0, 0)`, yet the position of the hovered identity and
the point of the marker buffer are `(1, 0, 0)`: they are `float` values, and
the conversion of `1 + 2^-30` to `float` gives `1`. -/
theorem pointerMove_position_rounded :
    shiftedEvent.isEditMode = true ∧
    (∃ node ∈ shiftedEvent.nodePath, node ∈ activatedState.targetNodes) ∧
    shiftedEvent.nodePath.getLast? = some 2 ∧
    shiftedEvent.asShape 2 = some ⟨some ⟨some [⟨1, 0, 0⟩]⟩⟩ ∧
    shiftedEvent.calcTotalTransform shiftedEvent.nodePath = smallShift ∧
    findPointedVertex [⟨1, 0, 0⟩] smallShift shiftedEvent.point = some 0 ∧
    smallShift * (⟨1, 0, 0⟩ : Vec3 Flt) = ⟨.finite (1 + 1 / 2 ^ 30), 0, 0⟩ ∧
    (activatedState.onPointerMoveEvent shiftedEvent).map
        (fun r => (r.1, r.2.pointedVertex.position, r.2.pointedVertexArray))
      = some (true, ⟨1, 0, 0⟩, [⟨1, 0, 0⟩]) ∧
    (⟨1, 0, 0⟩ : Vec3 Flt) ≠ smallShift * (⟨1, 0, 0⟩ : Vec3 Flt) := by
  refine ⟨rfl, ⟨1, by decide, by decide⟩, rfl, rfl, rfl, by decide!, by decide!, by decide!,
    by decide!⟩

/-- Claim C9, amended: after a pointer-move event in edit mode over a path `P`
with a target node whose leaf is a shape with vertex buffer `V`, when the vertex
search is accepted with index `i`, the index is in range, the hovered identity
has a path with the contents of `P`, vertex index `i` and, as position, the
conversion `(T * V[i]).cast<float>()` of the world position to `float`, the
hover marker buffer holds exactly that one point, and one redraw of the buffer
is signalled. -/
theorem pointerMove_sets_hover {K : Type} [Arith K] (s : Impl K)
    (e : SceneWidgetEvent K) (he : e.isEditMode = true)
    (ht : ∃ node ∈ e.nodePath, node ∈ s.targetNodes) (back : SgNodePtr) (shape : SgShape K)
    (mesh : SgMesh K) (vertices : List (Vec3 K)) (hb : e.nodePath.getLast? = some back)
    (hs : e.asShape back = some shape) (hm : shape.mesh = some mesh)
    (hvv : mesh.vertices = some vertices) (i : Nat)
    (hf : findPointedVertex vertices (e.calcTotalTransform e.nodePath) e.point = some i) :
    ∃ (v : Vec3 K) (s1 : Impl K), vertices[i]? = some v ∧
      s.onPointerMoveEvent e = some (true, s1) ∧
      s1.pointedVertex.isValid = true ∧
      s1.pointedVertex.path.map (fun p => p.val) = some e.nodePath ∧
      s1.pointedVertex.vertexIndex = (i : Int) ∧
      s1.pointedVertex.position = Arith.castFloat (e.calcTotalTransform e.nodePath * v) ∧
      s1.pointedVertexArray = [Arith.castFloat (e.calcTotalTransform e.nodePath * v)] ∧
      s1.pointedVertexArrayUpdates = s.pointedVertexArrayUpdates + 1 := by
  obtain ⟨v, hv, _⟩ := (findPointedVertex_eq_some_iff vertices _ e.point i).1 hf
  refine ⟨v,
    { s with
      pointedVertex := ⟨some ⟨s.nextAddr, e.nodePath⟩, (i : Int),
        Arith.castFloat (e.calcTotalTransform e.nodePath * v)⟩
      nextAddr := s.nextAddr + 1
      pointedVertexArray := [Arith.castFloat (e.calcTotalTransform e.nodePath * v)]
      pointedVertexArrayUpdates := s.pointedVertexArrayUpdates + 1 },
    hv, ?_, rfl, rfl, rfl, rfl, rfl, rfl⟩
  rw [Impl.onPointerMoveEvent_accepted s e he ht back shape mesh vertices hb hs hm hvv i hf]
  simp only [Impl.setPointedVertex, hv, Option.map_some']

/-- Claim C9, amended, at `activatedState` and `shiftedEvent`: the pointer moves
onto the one vertex of the shape, and the stored position is the `float`
`(1, 0, 0)`. -/
theorem pointerMove_sets_hover_witness :
    shiftedEvent.isEditMode = true ∧
    (∃ node ∈ shiftedEvent.nodePath, node ∈ activatedState.targetNodes) ∧
    findPointedVertex [⟨1, 0, 0⟩] (shiftedEvent.calcTotalTransform shiftedEvent.nodePath)
      shiftedEvent.point = some 0 ∧
    Arith.castFloat (smallShift * (⟨1, 0, 0⟩ : Vec3 Flt)) = ⟨1, 0, 0⟩ ∧
    ∃ (v : Vec3 Flt) (s1 : Impl Flt), ([⟨1, 0, 0⟩] : List (Vec3 Flt))[0]? = some v ∧
      activatedState.onPointerMoveEvent shiftedEvent = some (true, s1) ∧
      s1.pointedVertex.isValid = true ∧
      s1.pointedVertex.path.map (fun p => p.val) = some [1, 2] ∧
      s1.pointedVertex.vertexIndex = 0 ∧
      s1.pointedVertex.position = Arith.castFloat (smallShift * v) ∧
      s1.pointedVertexArray = [Arith.castFloat (smallShift * v)] ∧
      s1.pointedVertexArrayUpdates = activatedState.pointedVertexArrayUpdates + 1 :=
  have ht : ∃ node ∈ shiftedEvent.nodePath, node ∈ activatedState.targetNodes :=
    ⟨1, by decide, by decide⟩
  have hf : findPointedVertex [⟨1, 0, 0⟩] (shiftedEvent.calcTotalTransform shiftedEvent.nodePath)
      shiftedEvent.point = some 0 := by decide!
  ⟨rfl, ht, hf, by decide!,
    pointerMove_sets_hover activatedState shiftedEvent rfl ht 2
      ⟨some ⟨some [⟨1, 0, 0⟩]⟩⟩ ⟨some [⟨1, 0, 0⟩]⟩ [⟨1, 0, 0⟩] rfl rfl rfl rfl 0 hf⟩

/-- Claim C10: for a pointer-move event in edit mode, if the target set is
empty, or no node of the event's path is a target node, or the leaf of the path
is not a shape node, the result is that of `clearPointedVertex` on the old
state, whatever the pick point and the vertices are: the hover ends invalid and
the marker buffer empty.  So the vertex search decides the outcome only when
some node of the path is a target and the leaf is a shape. -/
theorem pointerMove_requires_target_and_shape {K : Type} [Arith K] (s : Impl K)
    (e : SceneWidgetEvent K) (he : e.isEditMode = true)
    (h : s.targetNodes = ∅ ∨ (∀ node ∈ e.nodePath, node ∉ s.targetNodes) ∨
      (∀ back : SgNodePtr, e.nodePath.getLast? = some back → e.asShape back = none)) :
    s.onPointerMoveEvent e = some (true, s.clearPointedVertex) ∧
    s.clearPointedVertex.pointedVertex.isValid = false ∧
    s.clearPointedVertex.pointedVertexArray = [] := by
  refine ⟨?_, s.clearPointedVertex_hover⟩
  rcases h with h | h | h
  · exact Impl.onPointerMoveEvent_no_target s e he (fun node _ => by simp [h])
  · exact Impl.onPointerMoveEvent_no_target s e he h
  · cases hb : e.nodePath.getLast? with
    | none =>
      rw [List.getLast?_eq_none_iff] at hb
      exact Impl.onPointerMoveEvent_no_target s e he (fun node hn => by simp [hb] at hn)
    | some back => exact Impl.onPointerMoveEvent_not_shape s e he back hb (h back hb)

/-- Claim C10 at `exampleState`: the pointer is exactly on vertex 0 of the
shape, but over a path without a target node, and the hover is cleared. -/
theorem pointerMove_requires_target_and_shape_witness :
    ({ exampleEvent ⟨0, 0, 0⟩ 0 with nodePath := [3, 2] } : SceneWidgetEvent Flt).isEditMode = true ∧
    (∀ node ∈ ({ exampleEvent ⟨0, 0, 0⟩ 0 with nodePath := [3, 2] } : SceneWidgetEvent Flt).nodePath,
      node ∉ exampleState.targetNodes) ∧
    findPointedVertex exampleVertices Affine3.identity ⟨0, 0, 0⟩ = some 0 ∧
    exampleState.pointedVertex.isValid = true ∧
    exampleState.onPointerMoveEvent { exampleEvent ⟨0, 0, 0⟩ 0 with nodePath := [3, 2] }
      = some (true, exampleState.clearPointedVertex) ∧
    exampleState.clearPointedVertex.pointedVertex.isValid = false ∧
    exampleState.clearPointedVertex.pointedVertexArray = [] :=
  have ht : ∀ node ∈
      ({ exampleEvent ⟨0, 0, 0⟩ 0 with nodePath := [3, 2] } : SceneWidgetEvent Flt).nodePath,
      node ∉ exampleState.targetNodes := by
    simp [exampleState, selectedBothState, hoverSecondState, selectedFirstState,
      hoverFirstState, activatedState]
  ⟨rfl, ht, findPointedVertex_example_origin, rfl,
    pointerMove_requires_target_and_shape exampleState
      { exampleEvent ⟨0, 0, 0⟩ 0 with nodePath := [3, 2] } rfl (Or.inr (Or.inl ht))⟩

/-! ## A shape without mesh or vertex array (C11) -/

/-- A pointer move in edit mode over a path with a target node whose leaf is a
shape without mesh, or with a mesh without vertex array, dereferences a null
pointer. -/
theorem Impl.onPointerMoveEvent_null_mesh {K : Type} [Arith K] (s : Impl K)
    (e : SceneWidgetEvent K) (he : e.isEditMode = true)
    (ht : ∃ node ∈ e.nodePath, node ∈ s.targetNodes) (hl : e.leafLacksVertices) :
    s.onPointerMoveEvent e = none := by
  have h : (e.nodePath.reverse.any (fun node => decide (node ∈ s.targetNodes))) = true := by
    rw [List.any_eq_true]
    obtain ⟨node, hn, hnt⟩ := ht
    exact ⟨node, List.mem_reverse.2 hn, by simpa using hnt⟩
  obtain ⟨back, shape, hb, hs, hm | ⟨mesh, hm, hv⟩⟩ := hl
  · simp only [Impl.onPointerMoveEvent, he, h, hb, hs, hm, Bool.not_true, Bool.false_eq_true,
      if_false, if_true]
  · simp only [Impl.onPointerMoveEvent, he, h, hb, hs, hm, hv, Bool.not_true,
      Bool.false_eq_true, if_false, if_true]

/-- A pointer move has undefined behaviour exactly in edit mode over a path
with a target node whose leaf is a shape without mesh or vertex array; in every
other case it returns a flag and a state. -/
theorem Impl.onPointerMoveEvent_eq_none_iff {K : Type} [Arith K] (s : Impl K)
    (e : SceneWidgetEvent K) :
    s.onPointerMoveEvent e = none ↔
      e.isEditMode = true ∧ (∃ node ∈ e.nodePath, node ∈ s.targetNodes) ∧
        e.leafLacksVertices := by
  constructor
  · intro h
    cases he : e.isEditMode with
    | false => rw [Impl.onPointerMoveEvent_not_edit s e he] at h; simp at h
    | true =>
      by_cases ht : ∃ node ∈ e.nodePath, node ∈ s.targetNodes
      · refine ⟨rfl, ht, ?_⟩
        cases hb : e.nodePath.getLast? with
        | none =>
          obtain ⟨node, hn, _⟩ := ht
          rw [List.getLast?_eq_none_iff] at hb
          rw [hb] at hn
          simp at hn
        | some back =>
          cases hs : e.asShape back with
          | none => rw [Impl.onPointerMoveEvent_not_shape s e he back hb hs] at h; simp at h
          | some shape =>
            cases hm : shape.mesh with
            | none => exact ⟨back, shape, hb, hs, Or.inl hm⟩
            | some mesh =>
              cases hv : mesh.vertices with
              | none => exact ⟨back, shape, hb, hs, Or.inr ⟨mesh, hm, hv⟩⟩
              | some vertices =>
                exfalso
                cases hf : findPointedVertex vertices (e.calcTotalTransform e.nodePath)
                    e.point with
                | none =>
                  rw [Impl.onPointerMoveEvent_rejected s e he ht back shape mesh vertices hb hs
                    hm hv hf] at h
                  simp at h
                | some i =>
                  rw [Impl.onPointerMoveEvent_accepted s e he ht back shape mesh vertices hb hs
                    hm hv i hf] at h
                  obtain ⟨v, hvi, _⟩ := (findPointedVertex_eq_some_iff vertices _ e.point i).1 hf
                  simp [Impl.setPointedVertex, hvi] at h
      · rw [Impl.onPointerMoveEvent_no_target s e he
          (fun node hn hnt => ht ⟨node, hn, hnt⟩)] at h
        simp at h
  · rintro ⟨he, ht, hl⟩
    exact Impl.onPointerMoveEvent_null_mesh s e he ht hl

/-- Claim C11 fails on the code: `meshlessEvent` and `vertexlessEvent` are
pointer moves in edit mode over the path `[1, 2]`, node `1` is a target of
`activatedState` and the leaf `2` is a shape, without mesh in the first event
and with a mesh without vertex array in the second.  The handler does not skip
the pick: it evaluates `*shape->mesh()->vertices()` and dereferences a null
pointer, the outcome `none` of the embedding, in place of returning with the
hover cleared. -/
theorem pointerMove_meshless_shape_undefined :
    meshlessEvent.isEditMode = true ∧ vertexlessEvent.isEditMode = true ∧
    (∃ node ∈ meshlessEvent.nodePath, node ∈ activatedState.targetNodes) ∧
    (∃ node ∈ vertexlessEvent.nodePath, node ∈ activatedState.targetNodes) ∧
    meshlessEvent.nodePath.getLast? = some 2 ∧ meshlessEvent.asShape 2 = some ⟨none⟩ ∧
    vertexlessEvent.nodePath.getLast? = some 2 ∧
    vertexlessEvent.asShape 2 = some ⟨some ⟨none⟩⟩ ∧
    activatedState.onPointerMoveEvent meshlessEvent = none ∧
    activatedState.onPointerMoveEvent vertexlessEvent = none ∧
    activatedState.onPointerMoveEvent meshlessEvent
      ≠ some (true, activatedState.clearPointedVertex) := by
  have ht : ∃ node ∈ ([1, 2] : List Nat), node ∈ activatedState.targetNodes :=
    ⟨1, by simp, by simp [activatedState]⟩
  have h1 : activatedState.onPointerMoveEvent meshlessEvent = none :=
    Impl.onPointerMoveEvent_null_mesh _ _ rfl ht ⟨2, ⟨none⟩, rfl, rfl, Or.inl rfl⟩
  have h2 : activatedState.onPointerMoveEvent vertexlessEvent = none :=
    Impl.onPointerMoveEvent_null_mesh _ _ rfl ht
      ⟨2, ⟨some ⟨none⟩⟩, rfl, rfl, Or.inr ⟨⟨none⟩, rfl, rfl⟩⟩
  refine ⟨rfl, rfl, ht, ht, rfl, rfl, rfl, rfl, h1, h2, ?_⟩
  rw [h1]
  simp

/-! ## The selected-marker array mirrors the selection (C12) -/

/-- Claim C12: in every reachable state the selected-marker array is the list
of stored positions of the selected elements, one per element and in selection
order, and `getSelectedPoints()` returns that same list, of the length of the
selection. -/
theorem selectedVertexArray_mirrors_selection {K : Type} [Arith K] (s : Impl K)
    (h : Reachable s) :
    s.selectedVertexArray = s.selectedVertices.map (fun v => v.position) ∧
    s.getSelectedPoints = s.selectedVertexArray ∧
    s.getSelectedPoints.length = s.selectedVertices.length ∧
    s.selectedVertexArray.length = s.selectedVertices.length ∧
    (∀ (i : Nat) (v : VertexInfo K), s.selectedVertices[i]? = some v →
      s.selectedVertexArray[i]? = some v.position ∧ s.getSelectedPoints[i]? = some v.position) := by
  have harr := h.wellFormed.array_eq
  refine ⟨harr, harr.symm, by simp [Impl.getSelectedPoints], by rw [harr]; simp, ?_⟩
  intro i v hv
  rw [harr]
  simp [Impl.getSelectedPoints, hv]

/-- Claim C12 at `exampleState`, where vertices 0 and 1 are selected. -/
theorem selectedVertexArray_mirrors_selection_witness :
    Reachable exampleState ∧
    exampleState.selectedVertexArray = exampleState.selectedVertices.map (fun v => v.position) ∧
    exampleState.getSelectedPoints = exampleState.selectedVertexArray ∧
    exampleState.getSelectedPoints.length = exampleState.selectedVertices.length ∧
    exampleState.selectedVertexArray.length = exampleState.selectedVertices.length ∧
    (∀ (i : Nat) (v : VertexInfo Flt), exampleState.selectedVertices[i]? = some v →
      exampleState.selectedVertexArray[i]? = some v.position ∧
      exampleState.getSelectedPoints[i]? = some v.position) :=
  ⟨exampleStates_reachable.2.2,
    selectedVertexArray_mirrors_selection exampleState exampleStates_reachable.2.2⟩

/-! ## The target set after a mode change (C13) -/

theorem foldl_insert_eq_union (l : List SgNodePtr) (acc : Finset SgNodePtr) :
    l.foldl (fun targets node => insert node targets) acc = acc ∪ l.toFinset := by
  induction l generalizing acc with
  | nil => simp
  | cons a l ih =>
    rw [List.foldl_cons, ih]
    ext x
    simp only [Finset.mem_union, Finset.mem_insert, List.toFinset_cons]
    tauto

theorem Impl.setupScenePointSelectionMode_targetNodes {K : Type} (s : Impl K)
    (e : SceneWidgetEvent K) :
    (s.setupScenePointSelectionMode e).targetNodes = e.getTargetSceneNodes.toFinset := by
  simp [Impl.setupScenePointSelectionMode, foldl_insert_eq_union]

theorem Impl.clearScenePointSelectionMode_targetNodes {K : Type} (s : Impl K)
    (sceneWidget : SceneWidgetPtr) :
    (s.clearScenePointSelectionMode sceneWidget).targetNodes = ∅ := by
  simp [Impl.clearScenePointSelectionMode]

/-- Claim C13: after a mode-change notification whose widget has the configured
mode active and is in edit mode, a node is in the target set iff
`getTargetSceneNodes` returned it for that event, whatever the target set held
before; after a notification whose widget has another mode active or is not in
edit mode the target set is empty, whichever widget sent it. -/
theorem sceneModeChanged_targetNodes {K : Type} (s : Impl K) (e : SceneWidgetEvent K) :
    (e.activeCustomMode = s.modeId ∧ e.isEditMode = true →
      (s.onSceneModeChanged e).targetNodes = e.getTargetSceneNodes.toFinset ∧
      ∀ node : SgNodePtr,
        node ∈ (s.onSceneModeChanged e).targetNodes ↔ node ∈ e.getTargetSceneNodes) ∧
    (e.activeCustomMode ≠ s.modeId ∨ e.isEditMode = false →
      (s.onSceneModeChanged e).targetNodes = ∅) := by
  constructor
  · rintro ⟨hm, he⟩
    have h : s.onSceneModeChanged e = s.setupScenePointSelectionMode e := by
      simp [Impl.onSceneModeChanged, hm, he]
    rw [h, Impl.setupScenePointSelectionMode_targetNodes]
    exact ⟨rfl, fun node => List.mem_toFinset⟩
  · intro hne
    have h : s.onSceneModeChanged e = s.clearScenePointSelectionMode e.sceneWidget := by
      rcases hne with hm | he
      · simp [Impl.onSceneModeChanged, hm]
      · simp [Impl.onSceneModeChanged, he]
    rw [h, Impl.clearScenePointSelectionMode_targetNodes]

/-! ## Only a primary-button press changes the selection (C14) -/

theorem Impl.clearPointedVertex_selection {K : Type} (s : Impl K) :
    s.clearPointedVertex.selectedVertices = s.selectedVertices ∧
    s.clearPointedVertex.selectedVertexArray = s.selectedVertexArray := by
  unfold Impl.clearPointedVertex
  dsimp only
  split <;> exact ⟨rfl, rfl⟩

theorem Impl.onPointerMoveEvent_selection {K : Type} [Arith K] (s s1 : Impl K)
    (e : SceneWidgetEvent K) (r : Bool) (h : s.onPointerMoveEvent e = some (r, s1)) :
    s1.selectedVertices = s.selectedVertices ∧
    s1.selectedVertexArray = s.selectedVertexArray := by
  cases he : e.isEditMode with
  | false =>
    rw [Impl.onPointerMoveEvent_not_edit s e he] at h
    simp only [Option.some.injEq, Prod.mk.injEq] at h
    rw [← h.2]; exact ⟨rfl, rfl⟩
  | true =>
    by_cases ht : ∃ node ∈ e.nodePath, node ∈ s.targetNodes
    · cases hb : e.nodePath.getLast? with
      | none =>
        obtain ⟨node, hn, _⟩ := ht
        rw [List.getLast?_eq_none_iff] at hb
        rw [hb] at hn
        simp at hn
      | some back =>
        cases hs : e.asShape back with
        | none =>
          rw [Impl.onPointerMoveEvent_not_shape s e he back hb hs] at h
          simp only [Option.some.injEq, Prod.mk.injEq] at h
          rw [← h.2]; exact s.clearPointedVertex_selection
        | some shape =>
          cases hm : shape.mesh with
          | none =>
            rw [Impl.onPointerMoveEvent_null_mesh s e he ht ⟨back, shape, hb, hs, Or.inl hm⟩] at h
            simp at h
          | some mesh =>
            cases hv : mesh.vertices with
            | none =>
              rw [Impl.onPointerMoveEvent_null_mesh s e he ht
                ⟨back, shape, hb, hs, Or.inr ⟨mesh, hm, hv⟩⟩] at h
              simp at h
            | some vertices =>
              cases hf : findPointedVertex vertices (e.calcTotalTransform e.nodePath) e.point with
              | none =>
                rw [Impl.onPointerMoveEvent_rejected s e he ht back shape mesh vertices hb hs hm
                  hv hf] at h
                simp only [Option.some.injEq, Prod.mk.injEq] at h
                rw [← h.2]; exact s.clearPointedVertex_selection
              | some i =>
                rw [Impl.onPointerMoveEvent_accepted s e he ht back shape mesh vertices hb hs hm
                  hv i hf] at h
                simp only [Option.map_eq_some', Prod.mk.injEq] at h
                obtain ⟨s2, hs2, _, rfl⟩ := h
                unfold Impl.setPointedVertex at hs2
                cases hvi : vertices[i]? with
                | none => simp [hvi] at hs2
                | some vi =>
                  simp only [hvi, Option.some.injEq] at hs2
                  rw [← hs2]; exact ⟨rfl, rfl⟩
    · rw [Impl.onPointerMoveEvent_no_target s e he
        (fun node hn hnt => ht ⟨node, hn, hnt⟩)] at h
      simp only [Option.some.injEq, Prod.mk.injEq] at h
      rw [← h.2]; exact s.clearPointedVertex_selection

theorem Impl.onSceneModeChanged_selection {K : Type} (s : Impl K) (e : SceneWidgetEvent K) :
    (s.onSceneModeChanged e).selectedVertices = s.selectedVertices ∧
    (s.onSceneModeChanged e).selectedVertexArray = s.selectedVertexArray := by
  unfold Impl.onSceneModeChanged
  split
  · exact ⟨rfl, rfl⟩
  · unfold Impl.clearScenePointSelectionMode
    dsimp only
    split <;> exact ⟨rfl, rfl⟩

/-- Claim C14: for every state and event, a pointer move that returns, a pointer
leave and a mode change leave the selection sequence and the selected-marker
array as they were, and a press of a button other than the primary one returns
`false` and leaves the whole state as it was.  A pointer move returns a flag
and a state on every event except a move in edit mode over a path with a
target node whose leaf is a shape without mesh or vertex array, where it
dereferences a null pointer. -/
theorem selection_changed_only_by_primary_press {K : Type} [Arith K]
    (s : Impl K) (e : SceneWidgetEvent K) :
    (∀ (r : Bool) (s1 : Impl K), s.onPointerMoveEvent e = some (r, s1) →
      s1.selectedVertices = s.selectedVertices ∧
      s1.selectedVertexArray = s.selectedVertexArray) ∧
    ((∃ (r : Bool) (s1 : Impl K), s.onPointerMoveEvent e = some (r, s1)) ↔
      ¬ (e.isEditMode = true ∧ (∃ node ∈ e.nodePath, node ∈ s.targetNodes) ∧
        e.leafLacksVertices)) ∧
    (s.onPointerLeaveEvent.selectedVertices = s.selectedVertices ∧
      s.onPointerLeaveEvent.selectedVertexArray = s.selectedVertexArray) ∧
    ((s.onSceneModeChanged e).selectedVertices = s.selectedVertices ∧
      (s.onSceneModeChanged e).selectedVertexArray = s.selectedVertexArray) ∧
    (e.button ≠ LeftButton → s.onButtonPressEvent e = some (false, s)) := by
  refine ⟨fun r s1 h => Impl.onPointerMoveEvent_selection s s1 e r h, ?_, ?_,
    s.onSceneModeChanged_selection e, fun hb => Impl.onButtonPressEvent_other_button s e hb⟩
  · rw [← Impl.onPointerMoveEvent_eq_none_iff s e]
    cases h : s.onPointerMoveEvent e with
    | none => simp
    | some x => exact ⟨fun _ => by simp, fun _ => ⟨x.1, x.2, rfl⟩⟩
  · unfold Impl.onPointerLeaveEvent
    split <;> exact ⟨rfl, rfl⟩

/-! ## Pointer leave (C15) -/

/-- A button press reads neither the hover marker buffer nor its redraw count:
pressing after a pointer leave is pressing before it. -/
theorem Impl.onPointerLeaveEvent_press_comm {K : Type} (s : Impl K) (e : SceneWidgetEvent K) :
    s.onPointerLeaveEvent.onButtonPressEvent e =
      (s.onButtonPressEvent e).map (fun r => (r.1, r.2.onPointerLeaveEvent)) := by
  by_cases hb : e.button = LeftButton
  · cases hv : s.pointedVertex.isValid <;> cases hc : e.controlHeld <;>
      cases hpa : s.pointedVertexArray <;>
      cases hsel : s.selectedVertices.isEmpty <;>
      cases hscan : Impl.scanSelected s.pointedVertex s.selectedVertices 0 none <;>
      simp [Impl.onButtonPressEvent, Impl.onPointerLeaveEvent, hb, hv, hc, hpa, hsel, hscan,
        Impl.updateSelectedVertexArray]
    all_goals (rename_i x; rcases x with ⟨_ | i, sp⟩ <;> simp)
  · have h1 : ∀ t : Impl K, t.onButtonPressEvent e = some (false, t) :=
      fun t => Impl.onButtonPressEvent_other_button t e hb
    rw [h1, h1]
    rfl

/-- Claim C15: for every state, `onPointerLeaveEvent` leaves the hover marker
buffer empty, signals one redraw if the buffer was not empty and none if it was,
and leaves every other part of the state as it was, the hovered identity with
its path, index and position included.  A primary-button press after the leave
gives what the same press before the leave gives, followed by the leave; in
particular a hover that was valid is pressed as a valid one: without the
modifier it becomes the selection. -/
theorem pointerLeave_only_empties_marker {K : Type} (s : Impl K) (e : SceneWidgetEvent K) :
    s.onPointerLeaveEvent =
      { s with
        pointedVertexArray := []
        pointedVertexArrayUpdates :=
          if s.pointedVertexArray.isEmpty then s.pointedVertexArrayUpdates
          else s.pointedVertexArrayUpdates + 1 } ∧
    s.onPointerLeaveEvent.pointedVertexArray = [] ∧
    (s.onPointerLeaveEvent.pointedVertexArrayUpdates = s.pointedVertexArrayUpdates + 1 ↔
      s.pointedVertexArray ≠ []) ∧
    (s.onPointerLeaveEvent.pointedVertexArrayUpdates = s.pointedVertexArrayUpdates ↔
      s.pointedVertexArray = []) ∧
    s.onPointerLeaveEvent.pointedVertex = s.pointedVertex ∧
    s.onPointerLeaveEvent.onButtonPressEvent e =
      (s.onButtonPressEvent e).map (fun r => (r.1, r.2.onPointerLeaveEvent)) ∧
    (s.pointedVertex.isValid = true → e.button = LeftButton → e.controlHeld = false →
      ∃ s1 : Impl K, s.onPointerLeaveEvent.onButtonPressEvent e = some (true, s1) ∧
        s1.selectedVertices = [s.pointedVertex]) := by
  have heq : s.onPointerLeaveEvent =
      { s with
        pointedVertexArray := []
        pointedVertexArrayUpdates :=
          if s.pointedVertexArray.isEmpty then s.pointedVertexArrayUpdates
          else s.pointedVertexArrayUpdates + 1 } := by
    unfold Impl.onPointerLeaveEvent
    cases h : s.pointedVertexArray with
    | nil =>
      cases s
      simp_all
    | cons a l => simp
  have hpv : s.onPointerLeaveEvent.pointedVertex = s.pointedVertex := by rw [heq]
  refine ⟨heq, by rw [heq], ?_, ?_, hpv, ?_, ?_⟩
  · rw [heq]
    cases h : s.pointedVertexArray <;> simp
  · rw [heq]
    cases h : s.pointedVertexArray <;> simp
  · exact Impl.onPointerLeaveEvent_press_comm s e
  · intro hv hb hc
    have hv1 : s.onPointerLeaveEvent.pointedVertex.isValid = true := by rw [hpv]; exact hv
    refine ⟨_, Impl.onButtonPressEvent_valid_plain _ e hb hv1 hc, ?_⟩
    show [s.onPointerLeaveEvent.pointedVertex] = [s.pointedVertex]
    rw [hpv]

/-! ## Validity of the held identities (C16) -/

/-- In a consistent state every button press returns a flag and a state. -/
theorem Impl.WellFormed.button_press_defined {K : Type} {s : Impl K} (hwf : s.WellFormed)
    (e : SceneWidgetEvent K) : ∃ (r : Bool) (s1 : Impl K), s.onButtonPressEvent e = some (r, s1) := by
  by_cases hb : e.button = LeftButton
  · cases hv : s.pointedVertex.isValid with
    | false =>
      cases hc : e.controlHeld with
      | true => exact ⟨_, _, Impl.onButtonPressEvent_invalid_control s e hb hv hc⟩
      | false =>
        rw [Impl.onButtonPressEvent_invalid_plain s e hb hv hc]
        split
        · exact ⟨_, _, rfl⟩
        · exact ⟨_, _, rfl⟩
    | true =>
      cases hc : e.controlHeld with
      | false => exact ⟨_, _, Impl.onButtonPressEvent_valid_plain s e hb hv hc⟩
      | true =>
        rcases hwf.control_press e hb hv hc with ⟨_, _, _, _, hres⟩ | ⟨_, _, _, _, _, hres⟩
        · exact ⟨_, _, hres⟩
        · exact ⟨_, _, hres⟩
  · exact ⟨_, _, Impl.onButtonPressEvent_other_button s e hb⟩

/-- Claim C16: in every reachable state each identity the mode holds, the
hovered one and every selected one, is valid as reported by `isValid()` iff its
path is non-empty and its vertex index is `>= 0`, and already iff either of the
two holds; an invalid hovered identity has index `-1`.  Every selected element
is valid, so the loop over the selection of a button press meets no missing
path and every button press returns. -/
theorem held_identities_valid {K : Type} [Arith K] (s : Impl K)
    (h : Reachable s) :
    (∀ v ∈ s.pointedVertex :: s.selectedVertices,
      (v.isValid = true ↔ v.hasNonEmptyPath ∧ 0 ≤ v.vertexIndex) ∧
      (v.isValid = true ↔ v.hasNonEmptyPath) ∧ (v.isValid = true ↔ 0 ≤ v.vertexIndex)) ∧
    (s.pointedVertex.isValid = false → s.pointedVertex.vertexIndex = -1) ∧
    (∀ v ∈ s.selectedVertices, v.isValid = true) ∧
    (s.pointedVertex.isValid = true →
      ∃ r : Option Nat × Option SharedPath,
        Impl.scanSelected s.pointedVertex s.selectedVertices 0 none = some r) ∧
    (∀ e : SceneWidgetEvent K,
      ∃ (r : Bool) (s1 : Impl K), s.onButtonPressEvent e = some (r, s1)) := by
  have hwf := h.wellFormed
  have hinv : s.pointedVertex.isValid = false → s.pointedVertex.vertexIndex = -1 := by
    intro hv
    apply hwf.pointed_invalid
    unfold VertexInfo.isValid at hv
    cases hp : s.pointedVertex.path with
    | none => rfl
    | some p => rw [hp] at hv; simp at hv
  have hfwd : ∀ v ∈ s.pointedVertex :: s.selectedVertices, v.isValid = true →
      v.hasNonEmptyPath ∧ 0 ≤ v.vertexIndex := by
    intro v hv hval
    obtain ⟨p, hp⟩ : ∃ p, v.path = some p := by
      unfold VertexInfo.isValid at hval
      exact Option.isSome_iff_exists.1 hval
    obtain ⟨h1, h2⟩ := hwf.valid_index v hv p hp
    exact ⟨⟨p, hp, h1⟩, h2⟩
  have hpath : ∀ v : VertexInfo K, v.hasNonEmptyPath → v.isValid = true := by
    rintro v ⟨p, hp, _⟩
    simp [VertexInfo.isValid, hp]
  have hidx : ∀ v ∈ s.pointedVertex :: s.selectedVertices, 0 ≤ v.vertexIndex →
      v.isValid = true := by
    intro v hv h0
    rcases List.mem_cons.1 hv with hv | hv
    · rw [hv] at h0 ⊢
      cases hval : s.pointedVertex.isValid with
      | true => rfl
      | false =>
        have := hinv hval
        omega
    · exact hwf.selected_valid v hv
  refine ⟨?_, hinv, hwf.selected_valid, ?_, fun e => hwf.button_press_defined e⟩
  · intro v hv
    exact ⟨⟨hfwd v hv, fun h1 => hpath v h1.1⟩, ⟨fun h1 => (hfwd v hv h1).1, hpath v⟩,
      ⟨fun h1 => (hfwd v hv h1).2, hidx v hv⟩⟩
  · intro hv
    obtain ⟨q, hq⟩ : ∃ q, s.pointedVertex.path = some q := by
      unfold VertexInfo.isValid at hv
      exact Option.isSome_iff_exists.1 hv
    rcases Impl.scanSelected_spec s.pointedVertex q hq s.selectedVertices hwf.selected_valid 0
      none with ⟨_, _, _, _, _, _, hres⟩ | ⟨_, _, hres, _⟩
    · exact ⟨_, hres⟩
    · exact ⟨_, hres⟩

/-- Claim C16 at `exampleState`: the hovered vertex 0 and the selected vertices
0 and 1 are valid, with the path `[1, 2]` and indices `0` and `1`. -/
theorem held_identities_valid_witness :
    Reachable exampleState ∧
    (∀ v ∈ exampleState.pointedVertex :: exampleState.selectedVertices,
      (v.isValid = true ↔ v.hasNonEmptyPath ∧ 0 ≤ v.vertexIndex) ∧
      (v.isValid = true ↔ v.hasNonEmptyPath) ∧ (v.isValid = true ↔ 0 ≤ v.vertexIndex)) ∧
    (∀ v ∈ exampleState.selectedVertices, v.isValid = true) ∧
    exampleState.pointedVertex.isValid = true ∧
    (∃ r : Option Nat × Option SharedPath,
      Impl.scanSelected exampleState.pointedVertex exampleState.selectedVertices 0 none
        = some r) :=
  have h := held_identities_valid exampleState exampleStates_reachable.2.2
  ⟨exampleStates_reachable.2.2, h.1, h.2.2.1, rfl, h.2.2.2.1 rfl⟩

/-! ## The search under transforms that keep distances (C17) -/

/-- Claim C17, as stated, fails for the identity transform, which leaves every
point where it is.  In `distantVertices` vertex 0, `(131072, 0, 0)`, is at the
world-space distance `5/512` from `distantPoint`, below `0.01`, yet
`findPointedVertex` returns `false`: the conversion of the local point to
`float` moves it to `(131072.015625, 0, 0)`, vertex 1 is the nearest vertex to
that point, and vertex 1 is at the world-space distance `0.0162...` from the
pick point.  And in `tinyVertices` with the pick point `(0, 0, 0)` index 0 is
returned, while vertex 1 is nearer to the pick point in world space: at
distance `0`, against `2^-80` for vertex 0. -/
theorem findPointedVertex_misses_near_vertex :
    Arith.inverse (Affine3.identity : Affine3 Flt) = Affine3.identity ∧
    (∀ v ∈ distantVertices, (Affine3.identity : Affine3 Flt) * v = v) ∧
    (Affine3.identity : Affine3 Flt) * distantPoint = distantPoint ∧
    distantVertices[0]? = some ⟨131072, 0, 0⟩ ∧
    Arith.distanceDouble ((Affine3.identity : Affine3 Flt) * (⟨131072, 0, 0⟩ : Vec3 Flt))
      distantPoint = .finite (5 / 512) ∧
    Arith.lt (Flt.finite (5 / 512)) Arith.threshold = true ∧
    Arith.castFloat (Arith.inverse (Affine3.identity : Affine3 Flt) * distantPoint)
      = ⟨.finite (131072 + 1 / 64), 0, 0⟩ ∧
    findMinDistanceIndex distantVertices
      (Arith.castFloat (Arith.inverse (Affine3.identity : Affine3 Flt) * distantPoint)) = 1 ∧
    findPointedVertex distantVertices Affine3.identity distantPoint = none ∧
    (∀ v ∈ tinyVertices, (Affine3.identity : Affine3 Flt) * v = v) ∧
    findPointedVertex tinyVertices Affine3.identity ⟨0, 0, 0⟩ = some 0 ∧
    tinyVertices[0]? = some ⟨.finite (1 / 2 ^ 80), 0, 0⟩ ∧
    tinyVertices[1]? = some ⟨0, 0, 0⟩ ∧
    Arith.distanceDouble ((Affine3.identity : Affine3 Flt) * (⟨.finite (1 / 2 ^ 80), 0, 0⟩ : Vec3 Flt))
      ⟨0, 0, 0⟩ = .finite (1 / 2 ^ 80) ∧
    Arith.distanceDouble ((Affine3.identity : Affine3 Flt) * (⟨0, 0, 0⟩ : Vec3 Flt))
      ⟨0, 0, 0⟩ = 0 ∧
    Arith.lt (0 : Flt) (.finite (1 / 2 ^ 80)) = true := by
  refine ⟨by decide!, by decide!, by decide!, by decide!, by decide!, by decide!, by decide!,
    by decide!, by decide!, by decide!, by decide!, by decide!, by decide!, by decide!,
    by decide!, by decide!⟩

/-- Claim C17, amended: for every vertex buffer `V`, every transform `T`,
distance-preserving or not, and every world point `p`, with the distances as the
source computes them: if `findPointedVertex` returns `true` with index `i`, then
`V[i]` is a vertex whose world position is at a distance below `0.01` from `p`,
no vertex has a `float` distance to the local point below that of `V[i]`, and
the distance of every vertex of lower index is neither below nor equal to it;
and if no vertex of `V` has its world position at a distance below `0.01` from
`p`, `findPointedVertex` returns `false`.  A vertex within the threshold can be
missed. -/
theorem findPointedVertex_within_threshold {K : Type} [Arith K] (V : List (Vec3 K))
    (T : Affine3 K) (p : Vec3 K) :
    (∀ i : Nat, findPointedVertex V T p = some i →
      ∃ v : Vec3 K, V[i]? = some v ∧ v ∈ V ∧
        Arith.lt (Arith.distanceDouble (T * v) p) Arith.threshold = true ∧
        (∀ (j : Nat) (w : Vec3 K), V[j]? = some w →
          Arith.lt (Arith.distanceFloat w (Arith.castFloat (Arith.inverse T * p)))
            (Arith.distanceFloat v (Arith.castFloat (Arith.inverse T * p))) = false) ∧
        (∀ (j : Nat) (w : Vec3 K), j < i → V[j]? = some w →
          Arith.lt (Arith.distanceFloat w (Arith.castFloat (Arith.inverse T * p)))
            (Arith.distanceFloat v (Arith.castFloat (Arith.inverse T * p))) = false ∧
          Arith.distanceFloat w (Arith.castFloat (Arith.inverse T * p))
            ≠ Arith.distanceFloat v (Arith.castFloat (Arith.inverse T * p)))) ∧
    ((∀ v ∈ V, Arith.lt (Arith.distanceDouble (T * v) p) Arith.threshold = false) →
      findPointedVertex V T p = none) := by
  have hsome : ∀ i : Nat, findPointedVertex V T p = some i →
      ∃ v : Vec3 K, V[i]? = some v ∧ v ∈ V ∧
        Arith.lt (Arith.distanceDouble (T * v) p) Arith.threshold = true ∧
        (∀ (j : Nat) (w : Vec3 K), V[j]? = some w →
          Arith.lt (Arith.distanceFloat w (Arith.castFloat (Arith.inverse T * p)))
            (Arith.distanceFloat v (Arith.castFloat (Arith.inverse T * p))) = false) ∧
        (∀ (j : Nat) (w : Vec3 K), j < i → V[j]? = some w →
          Arith.lt (Arith.distanceFloat w (Arith.castFloat (Arith.inverse T * p)))
            (Arith.distanceFloat v (Arith.castFloat (Arith.inverse T * p))) = false ∧
          Arith.distanceFloat w (Arith.castFloat (Arith.inverse T * p))
            ≠ Arith.distanceFloat v (Arith.castFloat (Arith.inverse T * p))) := by
    intro i hi
    obtain ⟨v, hv, _, hmin, hlow, hthr⟩ := (findPointedVertex_eq_some_iff V T p i).1 hi
    exact ⟨v, hv, List.getElem?_mem hv, hthr, hmin, hlow⟩
  refine ⟨hsome, ?_⟩
  intro hfar
  cases hf : findPointedVertex V T p with
  | none => rfl
  | some i =>
    obtain ⟨v, _, hv, hthr, _⟩ := hsome i hf
    rw [hfar v hv] at hthr
    exact absurd hthr (by simp)

/-- Claim C17, amended, at `exampleVertices`, the identity transform and the
pick point `(1.005, 0, 0)`: index 1 is returned, and vertex 1 is within the
threshold. -/
theorem findPointedVertex_within_threshold_witness :
    findPointedVertex exampleVertices Affine3.identity ⟨double (201 / 200), 0, 0⟩ = some 1 ∧
    ∃ v : Vec3 Flt, exampleVertices[1]? = some v ∧ v ∈ exampleVertices ∧
      Arith.lt (Arith.distanceDouble ((Affine3.identity : Affine3 Flt) * v)
        ⟨double (201 / 200), 0, 0⟩) Arith.threshold = true :=
  have hf := findPointedVertex_example_near
  have h := (findPointedVertex_within_threshold exampleVertices Affine3.identity
    ⟨double (201 / 200), 0, 0⟩).1 1 hf
  ⟨hf, h.elim fun v hv => ⟨v, hv.1, hv.2.1, hv.2.2.1⟩⟩

end Choreonoid
